import Mathlib

/-!
# Verification of the `iocc` dependency-injection container core

This file gives a shallow embedding of the resolution engine of the `iocc`
crate (the `iocc/src` tree: `container/core.rs`, `container/injector/*`,
`container/registry/*`, `key/*`, `scope.rs`) and proves or refutes the frozen
claims about it.

Modelling conventions:

* `TypeId`s, qualifier values, thread ids and error payloads are modelled as
  `Nat`.
* A type-erased managed object (`Box<dyn Managed>` / `Box<dyn SharedManaged>`)
  is an `Obj` carrying the `TypeId` of its concrete type, a payload value and
  an allocation identity `instId`; `dyn_clone` on an `Arc` preserves the
  allocation identity, so "backed by the same reference-counted instance" is
  `instId` equality.
* A provider (the `RawClosureProvider` shape used throughout the crate's own
  tests) is a `ProviderBody`: it requests its dependency keys in order through
  `dyn_get_dependency` (each aborting on the first error, as with the `?`
  operator), then either fails with a domain error (wrapped as
  `ObjectConstruction`, as in `raw_wrapper.rs`) or allocates a fresh object.
* Scopes are `Nat` with `outlive a b = b ≤ a` (so bigger is wider); this is
  the `Scope` trait contract of `scope.rs` (a total order with `SINGLETON`
  maximal and `sub_scope` one step down, as in `WebScope`).
* The caches (`ObjectMap`) and the in-progress table are association lists
  with first-match lookup and in-place replacement on insert, the semantics
  of the `HashMap`s in the source.  `ObjectMap` and `ProviderMap` bucket
  entries by target `TypeId` before keying by the full `Key`; since a key
  determines its target type, the two-level map is observationally a flat
  key-indexed map, which is how the cache and the constructing table are
  modelled.  `ProviderMap`'s slot structure is kept faithfully because the
  registry claims exercise it.
* The interpreter is fuel-indexed; `RunResult.stuck .outOfFuel` means the
  fuel ran out, `.panicked` marks the `unreachable!` assertions of the
  source, and `.blocked` marks the cross-thread wait branch (which, in a
  single-threaded run, would block on another thread).  The concurrent
  shared-construction protocol itself is modelled separately as a labelled
  transition system over thread states (`Protocol` section below).
-/

set_option maxHeartbeats 1000000

namespace Iocc

/-- Association-list lookup with `HashMap::get` semantics. -/
def alistGet {α β : Type} [DecidableEq α] : List (α × β) → α → Option β
  | [], _ => none
  | (a, b) :: t, x => if a = x then some b else alistGet t x

/-- Association-list insert with `HashMap::insert` semantics (replace the
existing binding, otherwise append). -/
def alistPut {α β : Type} [DecidableEq α] : List (α × β) → α → β → List (α × β)
  | [], x, y => [(x, y)]
  | (a, b) :: t, x, y => if a = x then (x, y) :: t else (a, b) :: alistPut t x y

/-- Association-list removal with `HashMap::remove` semantics.  (All bindings
of the key are dropped; on the duplicate-free lists maintained by `alistPut`
this coincides with removing the unique binding.) -/
def alistDrop {α β : Type} [DecidableEq α] : List (α × β) → α → List (α × β)
  | [], _ => []
  | (a, b) :: t, x => if a = x then alistDrop t x else (a, b) :: alistDrop t x

/-- Embeds `Key` (`key/mod.rs`): a target `TypeId` plus a type-erased
qualifier value; equality and hashing are componentwise. -/
structure Key where
  target : Nat
  qual : Nat
deriving DecidableEq, Repr

/-- Embeds the `InjectorError` enum of `container/injector/mod.rs` of the
`iocc` crate: `NotFound`, `EmptyCollection`, `CyclicDependency`,
`ShortLifetime` and `ObjectConstruction` (there is no `TypeMismatched`
variant in this enum). -/
inductive InjectorError where
  | notFound (key : Key)
  | emptyCollection (collection pat : Nat)
  | cyclicDependency (key : Key)
  | shortLifetime (key : Key) (lifetime scope : Nat)
  | objectConstruction (key : Key) (source : Nat)
deriving DecidableEq, Repr

/-- Embeds a type-erased managed object: concrete-type `TypeId`, payload, and
the allocation identity of the underlying (reference-counted) value. -/
structure Obj where
  typeTag : Nat
  value : Nat
  instId : Nat
deriving DecidableEq, Repr

/-- Embeds `WaitResponse` (`container/core.rs`). -/
inductive WaitResponse where
  | constructed
  | error (e : InjectorError)
deriving DecidableEq, Repr

/-- Embeds `InjectionTrace` (`container/injector/context.rs`): a stack-shaped
chain of keys, the current key last. -/
inductive InjectionTrace where
  | new (key : Key)
  | append (previous : InjectionTrace) (key : Key)
deriving DecidableEq, Repr

/-- Embeds `InjectionTrace::key`. -/
def InjectionTrace.key : InjectionTrace → Key
  | .new k => k
  | .append _ k => k

/-- Embeds `InjectionTrace::previous`. -/
def InjectionTrace.prev : InjectionTrace → Option InjectionTrace
  | .new _ => none
  | .append p _ => some p

/-- Embeds `InjectionTrace::previous_exist_key`: linear scan over the strict
predecessors of the current link. -/
def InjectionTrace.previousExistKey : InjectionTrace → Key → Bool
  | .new _, _ => false
  | .append p _, k => if p.key = k then true else p.previousExistKey k

/-- Embeds `CallContext` (`container/injector/context.rs`). -/
structure CallContext where
  trace : InjectionTrace
deriving DecidableEq, Repr

/-- Embeds `CallContext::new`. -/
def CallContext.new (key : Key) : CallContext := ⟨.new key⟩

/-- Embeds `CallContext::append`. -/
def CallContext.append (c : CallContext) (key : Key) : CallContext :=
  ⟨c.trace.append key⟩

/-- Embeds `CallContext::key`. -/
def CallContext.key (c : CallContext) : Key := c.trace.key

/-- Embeds the provider shape used by the crate (`RawClosureProvider` over a
closure that fetches each dependency with `injector.get(dep)?` and then
either returns a domain error or constructs a value). -/
structure ProviderBody where
  deps : List Key
  fail : Option Nat
  value : Nat
deriving DecidableEq, Repr

/-- Embeds `ProviderEntry` (`container/registry/provider_map.rs`). -/
inductive ProviderEntry where
  | shared (key : Key) (provider : ProviderBody) (scope : Nat)
  | owned (key : Key) (provider : ProviderBody)
deriving DecidableEq, Repr

/-- Embeds `ProviderEntry::dyn_key`. -/
def ProviderEntry.dynKey : ProviderEntry → Key
  | .shared k _ _ => k
  | .owned k _ => k

/-- Embeds `ProviderSlot` (`container/registry/provider_map.rs`): one slot per
target type, either a single entry or a key-indexed map. -/
inductive ProviderSlot where
  | singleton (entry : ProviderEntry)
  | map (entries : List (Key × ProviderEntry))
deriving DecidableEq, Repr

/-- Embeds `ProviderSlot::insert`. -/
def ProviderSlot.insert (s : ProviderSlot) (provider : ProviderEntry) : ProviderSlot :=
  match s with
  | .singleton entry =>
    if entry.dynKey = provider.dynKey then .singleton provider
    else .map (alistPut (alistPut [] entry.dynKey entry) provider.dynKey provider)
  | .map entries => .map (alistPut entries provider.dynKey provider)

/-- Embeds `ProviderSlot::get`. -/
def ProviderSlot.get (s : ProviderSlot) (key : Key) : Option ProviderEntry :=
  match s with
  | .singleton entry => if entry.dynKey = key then some entry else none
  | .map entries => alistGet entries key

/-- Embeds `ProviderMap` (`container/registry/provider_map.rs`): providers
bucketed by the target `TypeId`. -/
structure ProviderMap where
  providers : List (Nat × ProviderSlot)
deriving DecidableEq, Repr

/-- Embeds `ProviderMap::new`. -/
def ProviderMap.new : ProviderMap := ⟨[]⟩

/-- Embeds `ProviderMap::insert_impl`. -/
def ProviderMap.insertImpl (m : ProviderMap) (provider : ProviderEntry) : ProviderMap :=
  let target := provider.dynKey.target
  match alistGet m.providers target with
  | some slot => ⟨alistPut m.providers target (slot.insert provider)⟩
  | none => ⟨alistPut m.providers target (.singleton provider)⟩

/-- Embeds `ProviderMap::insert`. -/
def ProviderMap.insert (m : ProviderMap) (key : Key) (provider : ProviderBody) : ProviderMap :=
  m.insertImpl (.owned key provider)

/-- Embeds `ProviderMap::insert_shared`. -/
def ProviderMap.insertShared (m : ProviderMap) (key : Key) (provider : ProviderBody)
    (scope : Nat) : ProviderMap :=
  m.insertImpl (.shared key provider scope)

/-- Embeds `ProviderMap::get`. -/
def ProviderMap.get (m : ProviderMap) (key : Key) : Option ProviderEntry :=
  match alistGet m.providers key.target with
  | some slot => slot.get key
  | none => none

/-- Embeds `ConstructingObjectContext` (`container/core.rs`): the thread that
owns the in-progress construction plus its queued waiters (waiters are the
one-shot senders; here they are identified by waiter ids whose deliveries are
logged in the world). -/
structure ConstructingObjectContext where
  onThread : Nat
  waiters : List Nat
deriving DecidableEq, Repr

/-- Embeds `ConstructingObjectContext::notify`: one message per queued waiter,
in order. -/
def ConstructingObjectContext.notify (c : ConstructingObjectContext)
    (response : WaitResponse) : List (Nat × WaitResponse) :=
  c.waiters.map fun s => (s, response)

/-- Embeds `SharedManagedObjectData` (`container/core.rs`): the cached shared
objects and the in-progress constructing table of one container. -/
structure ContainerState where
  objects : List (Key × Obj)
  constructing : List (Key × ConstructingObjectContext)
deriving DecidableEq, Repr

/-- Embeds `SharedManagedObjectData::new`. -/
def ContainerState.new : ContainerState := ⟨[], []⟩

/-- Static part of a `ContainerCore`: the optional parent (an index into the
container family) and this container's scope. -/
structure ContainerDef where
  parent : Option Nat
  scope : Nat
deriving DecidableEq, Repr

/-- Static environment of a run: the container family and the frozen
registry all containers share. -/
structure Env where
  containers : List ContainerDef
  registry : ProviderMap
deriving DecidableEq, Repr

/-- Mutable world of a run: one `ContainerState` per container, the fresh
allocation counter, the provider-invocation log (one entry per
`dyn_provide`/`dyn_provide_shared` call, recording the constructed key) and
the waiter-notification log. -/
structure World where
  states : List ContainerState
  nextId : Nat
  invoked : List Key
  notes : List (Nat × WaitResponse)
deriving DecidableEq, Repr

/-- A fresh world for a family of `n` containers. -/
def World.init (n : Nat) : World := ⟨List.replicate n ContainerState.new, 0, [], []⟩

/-- Cache contents of container `j` at key `k`. -/
def World.cacheAt (w : World) (j : Nat) (k : Key) : Option Obj :=
  match w.states[j]? with
  | some st => alistGet st.objects k
  | none => none

/-- Constructing-table contents of container `j` at key `k`. -/
def World.recordAt (w : World) (j : Nat) (k : Key) : Option ConstructingObjectContext :=
  match w.states[j]? with
  | some st => alistGet st.constructing k
  | none => none

/-- Applies `f` to the state of container `j`. -/
def World.modifyState (w : World) (j : Nat) (f : ContainerState → ContainerState) : World :=
  match w.states[j]? with
  | some st => { w with states := w.states.set j (f st) }
  | none => w

/-- Reasons a modelled run stops without producing a `Result`. -/
inductive Stuck where
  | outOfFuel
  | panicked
  | blocked
deriving DecidableEq, Repr

deriving instance DecidableEq for Except

/-- Outcome of a modelled resolution: a `Result<Box<dyn Managed>,
InjectorError>` together with the post-state, or a stopped run. -/
inductive RunResult where
  | done (r : Except InjectorError Obj) (w : World)
  | stuck (s : Stuck)
deriving DecidableEq, Repr

/-- Outcome of resolving a provider's dependency list. -/
inductive DepsResult where
  | proceed (w : World)
  | failed (e : InjectorError) (w : World)
  | stuck (s : Stuck)
deriving DecidableEq, Repr

/-- Embeds `ContainerCore::try_get_constructed_object`: a cache hit clones the
stored handle (`clone_managed` preserves the allocation identity). -/
def tryGetConstructedObject (st : ContainerState) (key : Key) : Option Obj :=
  alistGet st.objects key

/-- Embeds `ContainerCore::try_get_provider_by_key`. -/
def tryGetProviderByKey (env : Env) (key : Key) : Except InjectorError ProviderEntry :=
  match env.registry.get key with
  | some provider => .ok provider
  | none => .error (.notFound key)

/-- Embeds `Scope::outlive`: `a.outlive b  =  a >= b`. -/
def scopeOutlive (a b : Nat) : Bool := b ≤ a

/-- Embeds `ContainerCore::should_forward_request_to_parent`: the object's
scope strictly outlives the current scope. -/
def shouldForwardRequestToParent (selfScope objectScope : Nat) : Bool :=
  scopeOutlive objectScope selfScope && objectScope ≠ selfScope

/-- Embeds `ContainerCore::notify_waiters`: remove the in-progress record if
present, then send the response to each of its waiters. -/
def notifyWaiters (w : World) (cidx : Nat) (key : Key) (response : WaitResponse) : World :=
  match w.recordAt cidx key with
  | some ctx =>
    let w' := w.modifyState cidx fun st => { st with constructing := alistDrop st.constructing key }
    { w' with notes := w'.notes ++ ctx.notify response }
  | none => w

/-- Embeds `ContainerCore::stop_construction_on_cyclic_dependency`: build the
`CyclicDependency` error, broadcast a clone of it to every queued waiter, and
return it. -/
def stopConstructionOnCyclicDependency (w : World) (cidx : Nat) (key : Key) :
    InjectorError × World :=
  let err := InjectorError.cyclicDependency key
  (err, notifyWaiters w cidx key (.error err))

/-- The injector capability a provider invocation receives (`&dyn Injector`
bound to the resolving container, as in `provider.dyn_provide(self, context)`):
resolve a key in a given call context against the current world. -/
def Inj : Type := CallContext → World → RunResult

/-- Embeds the dependency fetches of a provider closure: each dependency goes
through `Injector::dyn_get_dependency`, which appends the dependency key to
the call context's trace and resolves it on the same container (aborting on
the first error, as with the `?` operator). -/
def resolveDeps (inj : Inj) : List Key → CallContext → World → DepsResult
  | [], _, w => .proceed w
  | d :: ds, ctx, w =>
    match inj (ctx.append d) w with
    | .done (.ok _) w' => resolveDeps inj ds ctx w'
    | .done (.error e) w' => .failed e w'
    | .stuck s => .stuck s

/-- Embeds a provider invocation (`dyn_provide` / `dyn_provide_shared` through
`RawClosureProvider::provide`): log the invocation, fetch each dependency in
order, then either wrap the domain failure as `ObjectConstruction` or
allocate a fresh object of the key's target type. -/
def invokeProvider (inj : Inj) (provider : ProviderBody) (ctx : CallContext)
    (w : World) : RunResult :=
  let w1 := { w with invoked := w.invoked ++ [ctx.key] }
  match resolveDeps inj provider.deps ctx w1 with
  | .proceed w2 =>
    match provider.fail with
    | some code => .done (.error (.objectConstruction ctx.key code)) w2
    | none =>
      .done (.ok ⟨ctx.key.target, provider.value, w2.nextId⟩)
        { w2 with nextId := w2.nextId + 1 }
  | .failed e w2 => .done (.error e) w2
  | .stuck s => .stuck s

/-- Embeds `ContainerCore::construct_shared_object`: insert the in-progress
record tagging the calling thread, release the lock, invoke the provider; on
success insert the result into the cache and notify waiters with
`Constructed`, on failure notify waiters with the cloned error; either way
`notify_waiters` removes the record. -/
def constructSharedObject (inj : Inj) (tid cidx : Nat) (provider : ProviderBody)
    (ctx : CallContext) (w : World) : RunResult :=
  let key := ctx.key
  let w1 := w.modifyState cidx fun st =>
    { st with constructing := alistPut st.constructing key ⟨tid, []⟩ }
  match invokeProvider inj provider ctx w1 with
  | .done (.ok object) w2 =>
    let w3 := w2.modifyState cidx fun st =>
      { st with objects := alistPut st.objects key object }
    .done (.ok object) (notifyWaiters w3 cidx key .constructed)
  | .done (.error err) w2 =>
    .done (.error err) (notifyWaiters w2 cidx key (.error err))
  | .stuck s => .stuck s

/-- Embeds `ContainerCore::get_shared_object_from_self`: under the write lock,
dispatch on the in-progress record for the key.  A record owned by the current
thread is a same-thread re-entry; a record owned by another thread would make
this thread wait (`.blocked` in a single-threaded run). -/
def getSharedObjectFromSelf (inj : Inj) (tid cidx : Nat) (provider : ProviderBody)
    (ctx : CallContext) (w : World) : RunResult :=
  let key := ctx.key
  match w.recordAt cidx key with
  | some cctx =>
    if cctx.onThread = tid then
      match stopConstructionOnCyclicDependency w cidx key with
      | (err, w') => .done (.error err) w'
    else
      .stuck .blocked
  | none => constructSharedObject inj tid cidx provider ctx w

/-- Embeds `ContainerCore::get_unbounded_object_from_self`: check the
call-stack trace for the key; on a hit fail with `CyclicDependency`,
otherwise invoke the provider directly. -/
def getUnboundedObjectFromSelf (inj : Inj) (provider : ProviderBody)
    (ctx : CallContext) (w : World) : RunResult :=
  let key := ctx.key
  if ctx.trace.previousExistKey key then
    .done (.error (.cyclicDependency key)) w
  else
    invokeProvider inj provider ctx w

/-- Embeds `ContainerCore::get_object` (fuel guards the unbounded recursion
through providers; the `get_object_from_parent` delegation is inlined, its
missing-parent `unreachable!` becoming `.stuck .panicked`; the recursive
`self` injector handed to the helpers is `getObject` itself on this
container at the remaining fuel). -/
def getObject (env : Env) (tid : Nat) : Nat → Nat → CallContext → World → RunResult
  | 0, _, _, _ => .stuck .outOfFuel
  | fuel + 1, cidx, ctx, w =>
    match w.states[cidx]?, env.containers[cidx]? with
    | some st, some cdef =>
      let key := ctx.key
      match tryGetConstructedObject st key with
      | some object => .done (.ok object) w
      | none =>
        match tryGetProviderByKey env key with
        | .error e => .done (.error e) w
        | .ok (.shared _ provider scope) =>
          if shouldForwardRequestToParent cdef.scope scope then
            match cdef.parent with
            | some parent => getObject env tid fuel parent ctx w
            | none => .stuck .panicked
          else if scope = cdef.scope then
            getSharedObjectFromSelf (getObject env tid fuel cidx) tid cidx provider
              ctx w
          else
            getUnboundedObjectFromSelf (getObject env tid fuel cidx) provider ctx w
        | .ok (.owned _ provider) =>
          getUnboundedObjectFromSelf (getObject env tid fuel cidx) provider ctx w
    | _, _ => .stuck .panicked

/-- Embeds `Injector::dyn_get` for `ContainerCore`: resolve from a fresh
`CallContext`. -/
def dynGet (env : Env) (tid : Nat) (fuel : Nat) (cidx : Nat) (key : Key) (w : World) :
    RunResult :=
  getObject env tid fuel cidx (CallContext.new key) w

/-- Embeds `Injector::dyn_get_dependency` for `ContainerCore`: resolve with
the key appended to the caller's context. -/
def dynGetDependency (env : Env) (tid : Nat) (fuel : Nat) (cidx : Nat) (key : Key)
    (ctx : CallContext) (w : World) : RunResult :=
  getObject env tid fuel cidx (ctx.append key) w

/-! ## The typed `get` path (`TypedInjector::get`, `container/injector/mod.rs`) -/

/-- Outcome of a typed `get`: the downcast object, a propagated
`InjectorError`, or a hit `unreachable!` assertion. -/
inductive GetResult where
  | ok (object : Obj)
  | err (e : InjectorError)
  | panicked
deriving DecidableEq, Repr

/-- Embeds `TypedInjector::get`: forward `dyn_get`'s result; on success
downcast the type-erased object to the key's statically expected target type
(`expected`), where a failed downcast hits
`unreachable!("the object's type should be K::Target")`. -/
def typedGet (dynResult : Except InjectorError Obj) (expected : Nat) : GetResult :=
  match dynResult with
  | .ok boxed =>
    if boxed.typeTag = expected then .ok boxed else .panicked
  | .error err => .err err

/-! ## The configurer (`container/registry/configurer.rs`) -/

/-- Embeds the `RegistryError` enum (`container/registry/mod.rs`). -/
inductive RegistryError where
  | keyDuplicated (key : Key)
  | moduleInner (module : Nat) (source : Nat)
  | aggregated (errors : List RegistryError)
deriving Repr

/-- Embeds `ConfigurerImpl`. -/
structure ConfigurerImpl where
  providers : ProviderMap
  errors : List RegistryError
deriving Repr

/-- Embeds `ConfigurerImpl::new`. -/
def ConfigurerImpl.new : ConfigurerImpl := ⟨ProviderMap.new, []⟩

/-- Embeds `ConfigurerImpl::finish`. -/
def ConfigurerImpl.finish (c : ConfigurerImpl) : Except (List RegistryError) ProviderMap :=
  if c.errors.isEmpty then .ok c.providers else .error c.errors

/-- Embeds `ConfigurerPrivate::dyn_register` for `ConfigurerImpl`. -/
def ConfigurerImpl.dynRegister (c : ConfigurerImpl) (key : Key)
    (provider : ProviderBody) : ConfigurerImpl :=
  if (c.providers.get key).isNone then
    { c with providers := c.providers.insert key provider }
  else
    { c with errors := c.errors ++ [.keyDuplicated key] }

/-- Embeds `ConfigurerPrivate::dyn_register_shared` for `ConfigurerImpl`. -/
def ConfigurerImpl.dynRegisterShared (c : ConfigurerImpl) (key : Key)
    (provider : ProviderBody) (scope : Nat) : ConfigurerImpl :=
  if (c.providers.get key).isNone then
    { c with providers := c.providers.insertShared key provider scope }
  else
    { c with errors := c.errors ++ [.keyDuplicated key] }

/-- Embeds `Configurer::report_module_error` for `ConfigurerImpl`. -/
def ConfigurerImpl.reportModuleError (c : ConfigurerImpl) (module source : Nat) :
    ConfigurerImpl :=
  { c with errors := c.errors ++ [.moduleInner module source] }

/-! ## Collection queries (`container/injector/collect.rs`) -/

/-- Outcome of a collection query. -/
inductive CollectResult where
  | ok (objects : List Obj)
  | err (e : InjectorError)
  | panicked
deriving DecidableEq, Repr

/-- Embeds the resolve-and-downcast pipeline of
`impl_collect_for_non_map_collections!` over the already filtered keys:
`dyn_get` each key, downcast the result (a failed downcast is the
`unreachable!` in the macro), short-circuiting on the first error. -/
def collectObjects (dynget : Key → Except InjectorError Obj) (targetType : Nat) :
    List Key → CollectResult
  | [] => .ok []
  | k :: ks =>
    match dynget k with
    | .error e => .err e
    | .ok object =>
      if object.typeTag = targetType then
        match collectObjects dynget targetType ks with
        | .ok rest => .ok (object :: rest)
        | r => r
      else .panicked

/-- Embeds `Collect::collect` for the non-map collections (`Vec<T>` et al.):
filter the enumerated keys by target type and pattern, resolve each, and
reject an empty result with `EmptyCollection` (`collection` and `pat` are the
`type_name` tags baked into the error). -/
def collect (dynget : Key → Except InjectorError Obj) (keys : List Key)
    (targetType : Nat) (pattern : Key → Bool) (collection pat : Nat) : CollectResult :=
  let filtered := keys.filter fun k => k.target == targetType && pattern k
  match collectObjects dynget targetType filtered with
  | .ok objects =>
    if objects.isEmpty then .err (.emptyCollection collection pat) else .ok objects
  | r => r

/-- Modelled from the spec: `ProviderMap::keys(target_type)` is invoked by
`ContainerCore::keys` (`container/core.rs`) but its definition is not present
under `src/` in the `iocc` tree; per §4.3/§4.7 of the spec it enumerates all
registered Keys of the given target type, i.e. the keys of that type's slot. -/
def ProviderMap.keysOf (m : ProviderMap) (typeId : Nat) : List Key :=
  match alistGet m.providers typeId with
  | none => []
  | some (.singleton entry) => [entry.dynKey]
  | some (.map entries) => entries.map Prod.fst

/-- Embeds `TypedInjector::collect`: enumerate the keys of the pattern's
target type through `Injector::keys`, then assemble. -/
def typedCollect (dynget : Key → Except InjectorError Obj) (m : ProviderMap)
    (targetType : Nat) (pattern : Key → Bool) (collection pat : Nat) : CollectResult :=
  collect dynget (m.keysOf targetType) targetType pattern collection pat

/-! ## The concurrent shared-construction protocol

This transition system models `ContainerCore::get_object` →
`get_shared_object_from_self` for `N` independent threads concurrently
resolving one Key bound to a shared provider at the container's own scope.
Each `Step` constructor is one of the code's atomic sections (a section
executed while holding the `managed` `RwLock`, or a single channel
send/receive):

* `cacheHit`/`cacheMiss` — `try_get_constructed_object` under the read lock
  (the read guard is dropped before `get_shared_object_from_self` re-locks);
* `beginConstruct` — `construct_shared_object`'s record insertion under the
  write lock, after which the provider runs outside the lock (the invocation
  counter is the allocation index of the instance that invocation returns);
* `joinWaiters` — `register_waiter_on_object_context` under the write lock;
* `reentry` — `stop_construction_on_cyclic_dependency` under the write lock;
* `finishConstruct`/`finishError` — the provider call returning, then the
  cache insertion and `notify_waiters` under the write lock;
* `deliverConstructed`/`deliverError` — a waiter's
  `get_object_on_object_context_response`: receive the response and, for
  `Constructed`, re-read the cache under the read lock.

The provider outcome is a function `res` of the invocation index; a run of
the code in which the provider is pure and non-reentrant realizes exactly
these outcomes. -/

namespace Protocol

/-- State of one thread participating in the protocol for the single Key. -/
inductive TState where
  | idle
  | checked
  | constructing (inv : Nat)
  | waiting
  | notified (resp : WaitResponse)
  | finished (r : Except InjectorError Obj)
deriving DecidableEq, Repr

/-- Global configuration: the thread states, the in-progress record for the
Key (owner thread and queued waiters), the cache slot for the Key, and the
number of provider invocations so far. -/
structure Config where
  threads : List TState
  record : Option (Nat × List Nat)
  cache : Option Obj
  invocations : Nat
deriving DecidableEq, Repr

/-- Delivery of one response to every queued waiter
(`ConstructingObjectContext::notify`). -/
def notifyAll (threads : List TState) (ws : List Nat) (resp : WaitResponse) : List TState :=
  ws.foldl (fun ths t => ths.set t (.notified resp)) threads

/-- Embeds `ContainerCore::notify_waiters` at the configuration level: remove
the record, if any, and send the response to its waiters. -/
def notifyWaitersC (c : Config) (resp : WaitResponse) : Config :=
  match c.record with
  | some (_, ws) => { c with record := none, threads := notifyAll c.threads ws resp }
  | none => c

/-- One atomic step of the protocol, for a fixed Key `key` and provider
outcomes `res` (indexed by invocation). -/
inductive Step (key : Key) (res : Nat → Except InjectorError Obj) : Config → Config → Prop where
  | cacheHit (c : Config) (t : Nat) (obj : Obj) :
      c.threads[t]? = some .idle → c.cache = some obj →
      Step key res c { c with threads := c.threads.set t (.finished (.ok obj)) }
  | cacheMiss (c : Config) (t : Nat) :
      c.threads[t]? = some .idle → c.cache = none →
      Step key res c { c with threads := c.threads.set t .checked }
  | beginConstruct (c : Config) (t : Nat) :
      c.threads[t]? = some .checked → c.record = none →
      Step key res c
        { c with
          threads := c.threads.set t (.constructing c.invocations)
          record := some (t, [])
          invocations := c.invocations + 1 }
  | joinWaiters (c : Config) (t o : Nat) (ws : List Nat) :
      c.threads[t]? = some .checked → c.record = some (o, ws) → o ≠ t →
      Step key res c
        { c with
          threads := c.threads.set t .waiting
          record := some (o, ws ++ [t]) }
  | reentry (c : Config) (t : Nat) (ws : List Nat) :
      c.threads[t]? = some .checked → c.record = some (t, ws) →
      Step key res c
        { notifyWaitersC c (.error (.cyclicDependency key)) with
          threads :=
            (notifyWaitersC c (.error (.cyclicDependency key))).threads.set t
              (.finished (.error (.cyclicDependency key))) }
  | finishConstruct (c : Config) (t i : Nat) (obj : Obj) :
      c.threads[t]? = some (.constructing i) → res i = .ok obj →
      Step key res c
        { notifyWaitersC { c with cache := some obj } .constructed with
          threads :=
            (notifyWaitersC { c with cache := some obj } .constructed).threads.set t
              (.finished (.ok obj)) }
  | finishError (c : Config) (t i : Nat) (e : InjectorError) :
      c.threads[t]? = some (.constructing i) → res i = .error e →
      Step key res c
        { notifyWaitersC c (.error e) with
          threads := (notifyWaitersC c (.error e)).threads.set t (.finished (.error e)) }
  | deliverConstructed (c : Config) (t : Nat) (obj : Obj) :
      c.threads[t]? = some (.notified .constructed) → c.cache = some obj →
      Step key res c { c with threads := c.threads.set t (.finished (.ok obj)) }
  | deliverError (c : Config) (t : Nat) (e : InjectorError) :
      c.threads[t]? = some (.notified (.error e)) →
      Step key res c { c with threads := c.threads.set t (.finished (.error e)) }

end Protocol

/-! ## Run invariants -/

/-- Errors the resolution engine itself can produce: `NotFound`,
`CyclicDependency`, and `ObjectConstruction` (wrapping a provider's domain
failure).  `ShortLifetime` and `EmptyCollection` are never constructed on the
`get` path. -/
def InjectorError.isEngineError : InjectorError → Bool
  | .notFound _ => true
  | .cyclicDependency _ => true
  | .objectConstruction _ _ => true
  | .shortLifetime _ _ _ => false
  | .emptyCollection _ _ => false

/-- Invariants relating the pre- and post-world of any resolution step: the
container family keeps its shape; a container's cache entry for a key can
only change if that key is registered as shared exactly at that container's
scope; an absent in-progress record stays absent across a completed call; and
the invocation log only grows. -/
structure StepOK (env : Env) (w w' : World) : Prop where
  len : w'.states.length = w.states.length
  cache : ∀ j k, w'.cacheAt j k ≠ w.cacheAt j k →
    ∃ k0 body cdef, env.containers[j]? = some cdef ∧
      env.registry.get k = some (.shared k0 body cdef.scope)
  record : ∀ j k, w.recordAt j k = none → w'.recordAt j k = none
  invoked : ∃ tail, w'.invoked = w.invoked ++ tail

/-- Guard invariant for keys whose in-progress record is owned by the current
thread when a sub-resolution starts: the sub-resolution leaves that key's
cache entry alone, and if it completes successfully the record is still in
place, untouched.  (A same-thread record can only disappear through the
re-entry branch, whose `CyclicDependency` error then aborts every frame in
between, so no successful sub-resolution outlives such a removal.) -/
def RunGuard (tid : Nat) (w w' : World) (r : Except InjectorError Obj) : Prop :=
  ∀ j k cctx, w.recordAt j k = some cctx → cctx.onThread = tid →
    w'.cacheAt j k = w.cacheAt j k ∧ (∀ o, r = .ok o → w'.recordAt j k = some cctx)

/-- Conclusions of the master induction for one completed resolution call. -/
def RunOK (env : Env) (tid : Nat) (w : World) (r : Except InjectorError Obj)
    (w' : World) : Prop :=
  StepOK env w w' ∧ (∀ e, r = .error e → e.isEngineError = true) ∧ RunGuard tid w w' r

/-- Induction-hypothesis package at a given fuel: every completed
`getObject` call satisfies the run invariants. -/
def GetOK (env : Env) (tid fuel : Nat) : Prop :=
  ∀ cidx ctx w r w', getObject env tid fuel cidx ctx w = .done r w' →
    RunOK env tid w r w'

/-- The same package for an injector capability handed to the helpers. -/
def InjOK (env : Env) (tid : Nat) (inj : Inj) : Prop :=
  ∀ ctx w r w', inj ctx w = .done r w' → RunOK env tid w r w'

/-! ## Basic lemmas about the association lists and the world -/

theorem alistGet_put_self {α β : Type} [DecidableEq α] (l : List (α × β)) (k : α) (v : β) :
    alistGet (alistPut l k v) k = some v := by
  induction l with
  | nil => simp [alistGet, alistPut]
  | cons hd t ih =>
    obtain ⟨a, b⟩ := hd
    by_cases h : a = k <;> simp [alistGet, alistPut, h, ih]

theorem alistGet_put_other {α β : Type} [DecidableEq α] (l : List (α × β)) (k k' : α)
    (v : β) (h : k' ≠ k) : alistGet (alistPut l k v) k' = alistGet l k' := by
  induction l with
  | nil => simp [alistGet, alistPut, Ne.symm h]
  | cons hd t ih =>
    obtain ⟨a, b⟩ := hd
    by_cases ha : a = k
    · subst ha
      simp [alistGet, alistPut, Ne.symm h]
    · simp [alistGet, alistPut, ha, ih]

theorem alistGet_drop_self {α β : Type} [DecidableEq α] (l : List (α × β)) (k : α) :
    alistGet (alistDrop l k) k = none := by
  induction l with
  | nil => simp [alistGet, alistDrop]
  | cons hd t ih =>
    obtain ⟨a, b⟩ := hd
    by_cases h : a = k <;> simp [alistGet, alistDrop, h, ih]

theorem alistGet_drop_other {α β : Type} [DecidableEq α] (l : List (α × β)) (k k' : α)
    (h : k' ≠ k) : alistGet (alistDrop l k) k' = alistGet l k' := by
  induction l with
  | nil => simp [alistGet, alistDrop]
  | cons hd t ih =>
    obtain ⟨a, b⟩ := hd
    by_cases ha : a = k
    · subst ha
      simp [alistGet, alistDrop, Ne.symm h, ih]
    · simp [alistGet, alistDrop, ha, ih]

theorem modifyState_states_self (w : World) (j : Nat) (f : ContainerState → ContainerState)
    (st : ContainerState) (h : w.states[j]? = some st) :
    (w.modifyState j f).states[j]? = some (f st) := by
  have hlt : j < w.states.length := by
    by_contra hge
    rw [List.getElem?_eq_none (by omega)] at h
    exact Option.noConfusion h
  simp [World.modifyState, h, List.getElem?_set_self hlt]

theorem modifyState_states_ne (w : World) (j j' : Nat) (f : ContainerState → ContainerState)
    (h : j' ≠ j) : (w.modifyState j f).states[j']? = w.states[j']? := by
  simp only [World.modifyState]
  cases hg : w.states[j]? with
  | none => rfl
  | some st => simp [List.getElem?_set_ne (Ne.symm h)]

theorem modifyState_nextId (w : World) (j : Nat) (f : ContainerState → ContainerState) :
    (w.modifyState j f).nextId = w.nextId := by
  simp only [World.modifyState]
  cases w.states[j]? <;> rfl

theorem modifyState_invoked (w : World) (j : Nat) (f : ContainerState → ContainerState) :
    (w.modifyState j f).invoked = w.invoked := by
  simp only [World.modifyState]
  cases w.states[j]? <;> rfl

theorem modifyState_notes (w : World) (j : Nat) (f : ContainerState → ContainerState) :
    (w.modifyState j f).notes = w.notes := by
  simp only [World.modifyState]
  cases w.states[j]? <;> rfl

theorem cacheAt_modifyState_constructing (w : World) (j : Nat)
    (g : ContainerState → List (Key × ConstructingObjectContext)) (j' : Nat) (k : Key) :
    (w.modifyState j fun st => { st with constructing := g st }).cacheAt j' k =
      w.cacheAt j' k := by
  by_cases hj : j' = j
  · subst hj
    cases hg : w.states[j']? with
    | none => simp [World.cacheAt, World.modifyState, hg]
    | some st => simp [World.cacheAt, modifyState_states_self w j' _ st hg, hg]
  · simp [World.cacheAt, modifyState_states_ne w j j' _ hj]

theorem recordAt_modifyState_objects (w : World) (j : Nat)
    (g : ContainerState → List (Key × Obj)) (j' : Nat) (k : Key) :
    (w.modifyState j fun st => { st with objects := g st }).recordAt j' k =
      w.recordAt j' k := by
  by_cases hj : j' = j
  · subst hj
    cases hg : w.states[j']? with
    | none => simp [World.recordAt, World.modifyState, hg]
    | some st => simp [World.recordAt, modifyState_states_self w j' _ st hg, hg]
  · simp [World.recordAt, modifyState_states_ne w j j' _ hj]

theorem notifyWaiters_recordAt_self (w : World) (c : Nat) (k : Key) (r : WaitResponse) :
    (notifyWaiters w c k r).recordAt c k = none := by
  simp only [notifyWaiters]
  cases hr : w.recordAt c k with
  | none => exact hr
  | some ctx =>
    simp only [World.recordAt] at hr ⊢
    cases hg : w.states[c]? with
    | none => simp [hg] at hr
    | some st =>
      rw [show (({ w.modifyState c (fun st =>
          { st with constructing := alistDrop st.constructing k }) with
            notes := (w.modifyState c fun st =>
              { st with constructing := alistDrop st.constructing k }).notes ++
                ctx.notify r } : World)).states =
          (w.modifyState c fun st =>
            { st with constructing := alistDrop st.constructing k }).states from rfl]
      rw [modifyState_states_self w c _ st hg]
      simp [alistGet_drop_self]

theorem notifyWaiters_recordAt_other (w : World) (c : Nat) (k : Key) (r : WaitResponse)
    (j : Nat) (k' : Key) (h : j ≠ c ∨ k' ≠ k) :
    (notifyWaiters w c k r).recordAt j k' = w.recordAt j k' := by
  simp only [notifyWaiters]
  cases hr : w.recordAt c k with
  | none => rfl
  | some ctx =>
    simp only [World.recordAt]
    rcases h with h | h
    · rw [show (({ w.modifyState c (fun st =>
          { st with constructing := alistDrop st.constructing k }) with
            notes := (w.modifyState c fun st =>
              { st with constructing := alistDrop st.constructing k }).notes ++
                ctx.notify r } : World)).states =
          (w.modifyState c fun st =>
            { st with constructing := alistDrop st.constructing k }).states from rfl]
      rw [modifyState_states_ne w c j _ h]
    · cases hg : w.states[c]? with
      | none =>
        by_cases hj : j = c
        · subst hj
          simp [World.modifyState, hg]
        · rw [show (({ w.modifyState c (fun st =>
              { st with constructing := alistDrop st.constructing k }) with
                notes := (w.modifyState c fun st =>
                  { st with constructing := alistDrop st.constructing k }).notes ++
                    ctx.notify r } : World)).states =
              (w.modifyState c fun st =>
                { st with constructing := alistDrop st.constructing k }).states from rfl]
          rw [modifyState_states_ne w c j _ hj]
      | some st =>
        by_cases hj : j = c
        · subst hj
          rw [show (({ w.modifyState j (fun st =>
              { st with constructing := alistDrop st.constructing k }) with
                notes := (w.modifyState j fun st =>
                  { st with constructing := alistDrop st.constructing k }).notes ++
                    ctx.notify r } : World)).states =
              (w.modifyState j fun st =>
                { st with constructing := alistDrop st.constructing k }).states from rfl]
          rw [modifyState_states_self w j _ st hg, hg]
          simp [alistGet_drop_other _ _ _ h]
        · rw [show (({ w.modifyState c (fun st =>
              { st with constructing := alistDrop st.constructing k }) with
                notes := (w.modifyState c fun st =>
                  { st with constructing := alistDrop st.constructing k }).notes ++
                    ctx.notify r } : World)).states =
              (w.modifyState c fun st =>
                { st with constructing := alistDrop st.constructing k }).states from rfl]
          rw [modifyState_states_ne w c j _ hj]

theorem notifyWaiters_cacheAt (w : World) (c : Nat) (k : Key) (r : WaitResponse)
    (j : Nat) (k' : Key) :
    (notifyWaiters w c k r).cacheAt j k' = w.cacheAt j k' := by
  simp only [notifyWaiters]
  cases hr : w.recordAt c k with
  | none => rfl
  | some ctx =>
    rw [show (({ w.modifyState c (fun st =>
        { st with constructing := alistDrop st.constructing k }) with
          notes := (w.modifyState c fun st =>
            { st with constructing := alistDrop st.constructing k }).notes ++
              ctx.notify r } : World)).cacheAt j k' =
        (w.modifyState c fun st =>
          { st with constructing := alistDrop st.constructing k }).cacheAt j k' from rfl]
    exact cacheAt_modifyState_constructing w c _ j k'

theorem notifyWaiters_invoked (w : World) (c : Nat) (k : Key) (r : WaitResponse) :
    (notifyWaiters w c k r).invoked = w.invoked := by
  simp only [notifyWaiters]
  cases w.recordAt c k with
  | none => rfl
  | some ctx => simp [modifyState_invoked]

theorem notifyWaiters_nextId (w : World) (c : Nat) (k : Key) (r : WaitResponse) :
    (notifyWaiters w c k r).nextId = w.nextId := by
  simp only [notifyWaiters]
  cases w.recordAt c k with
  | none => rfl
  | some ctx => simp [modifyState_nextId]

theorem notifyWaiters_notes_of_record (w : World) (c : Nat) (k : Key) (r : WaitResponse)
    (ctx : ConstructingObjectContext) (h : w.recordAt c k = some ctx) :
    (notifyWaiters w c k r).notes = w.notes ++ ctx.notify r := by
  simp [notifyWaiters, h, modifyState_notes]

theorem modifyState_len (w : World) (j : Nat) (f : ContainerState → ContainerState) :
    (w.modifyState j f).states.length = w.states.length := by
  simp only [World.modifyState]
  cases w.states[j]? <;> simp

theorem notifyWaiters_len (w : World) (c : Nat) (k : Key) (r : WaitResponse) :
    (notifyWaiters w c k r).states.length = w.states.length := by
  simp only [notifyWaiters]
  cases w.recordAt c k with
  | none => rfl
  | some ctx => simp [modifyState_len]

theorem notifyWaiters_record_clean (w : World) (c : Nat) (k : Key) (r : WaitResponse)
    (j : Nat) (k' : Key) (h : w.recordAt j k' = none) :
    (notifyWaiters w c k r).recordAt j k' = none := by
  by_cases hc : j = c ∧ k' = k
  · obtain ⟨hc1, hc2⟩ := hc
    subst hc1; subst hc2
    exact notifyWaiters_recordAt_self w j k' r
  · rw [notifyWaiters_recordAt_other w c k r j k' (by tauto)]
    exact h

theorem recordAt_modifyState_put (w : World) (c : Nat) (key : Key)
    (ctx : ConstructingObjectContext) (j : Nat) (k : Key) (h : j ≠ c ∨ k ≠ key) :
    (w.modifyState c fun st =>
        { st with constructing := alistPut st.constructing key ctx }).recordAt j k =
      w.recordAt j k := by
  rcases h with h | h
  · simp [World.recordAt, modifyState_states_ne w c j _ h]
  · by_cases hj : j = c
    · subst hj
      cases hg : w.states[j]? with
      | none => simp [World.recordAt, World.modifyState, hg]
      | some st =>
        simp [World.recordAt, modifyState_states_self w j _ st hg, hg,
          alistGet_put_other _ _ _ _ h]
    · simp [World.recordAt, modifyState_states_ne w c j _ hj]

theorem cacheAt_modifyState_put_self (w : World) (c : Nat) (key : Key) (obj : Obj)
    (st : ContainerState) (hg : w.states[c]? = some st) :
    (w.modifyState c fun st =>
        { st with objects := alistPut st.objects key obj }).cacheAt c key = some obj := by
  simp [World.cacheAt, modifyState_states_self w c _ st hg, alistGet_put_self]

theorem cacheAt_modifyState_put_other (w : World) (c : Nat) (key : Key) (obj : Obj)
    (j : Nat) (k : Key) (h : j ≠ c ∨ k ≠ key) :
    (w.modifyState c fun st =>
        { st with objects := alistPut st.objects key obj }).cacheAt j k =
      w.cacheAt j k := by
  rcases h with h | h
  · simp [World.cacheAt, modifyState_states_ne w c j _ h]
  · by_cases hj : j = c
    · subst hj
      cases hg : w.states[j]? with
      | none => simp [World.cacheAt, World.modifyState, hg]
      | some st =>
        simp [World.cacheAt, modifyState_states_self w j _ st hg, hg,
          alistGet_put_other _ _ _ _ h]
    · simp [World.cacheAt, modifyState_states_ne w c j _ hj]

theorem StepOK.refl (env : Env) (w : World) : StepOK env w w :=
  ⟨rfl, fun _ _ h => absurd rfl h, fun _ _ h => h, ⟨[], by simp⟩⟩

theorem StepOK.trans {env : Env} {w1 w2 w3 : World} (a : StepOK env w1 w2)
    (b : StepOK env w2 w3) : StepOK env w1 w3 := by
  refine ⟨b.len.trans a.len, ?_, ?_, ?_⟩
  · intro j k h
    by_cases h12 : w2.cacheAt j k = w1.cacheAt j k
    · exact b.cache j k (by rw [h12]; exact h)
    · exact a.cache j k h12
  · intro j k h
    exact b.record j k (a.record j k h)
  · obtain ⟨t1, h1⟩ := a.invoked
    obtain ⟨t2, h2⟩ := b.invoked
    exact ⟨t1 ++ t2, by simp [h2, h1]⟩

theorem StepOK.of_invokedAppend (env : Env) (w : World) (ks : List Key) :
    StepOK env w { w with invoked := w.invoked ++ ks } :=
  ⟨rfl, fun _ _ h => absurd rfl h, fun _ _ h => h, ⟨ks, rfl⟩⟩

theorem StepOK.of_nextId (env : Env) (w : World) (n : Nat) :
    StepOK env w { w with nextId := n } :=
  ⟨rfl, fun _ _ h => absurd rfl h, fun _ _ h => h, ⟨[], by simp⟩⟩

theorem StepOK.of_notifyWaiters (env : Env) (w : World) (c : Nat) (k : Key)
    (r : WaitResponse) : StepOK env w (notifyWaiters w c k r) :=
  ⟨notifyWaiters_len w c k r,
   fun j k' h => absurd (notifyWaiters_cacheAt w c k r j k') h,
   fun j k' h => notifyWaiters_record_clean w c k r j k' h,
   ⟨[], by simp [notifyWaiters_invoked]⟩⟩

theorem recordAt_modifyState_put_self (w : World) (c : Nat) (key : Key)
    (ctx : ConstructingObjectContext) (st : ContainerState)
    (hst : w.states[c]? = some st) :
    (w.modifyState c fun st =>
        { st with constructing := alistPut st.constructing key ctx }).recordAt c key =
      some ctx := by
  simp [World.recordAt, modifyState_states_self w c _ st hst, alistGet_put_self]

theorem exists_getElem?_of_length_eq {α : Type} {l l' : List α} {j : Nat}
    (h : l'.length = l.length) {x : α} (hx : l[j]? = some x) : ∃ y, l'[j]? = some y := by
  have hj : j < l.length := by
    by_contra hge
    rw [List.getElem?_eq_none (by omega)] at hx
    exact Option.noConfusion hx
  have hj' : j < l'.length := by omega
  exact ⟨l'[j], List.getElem?_eq_getElem hj'⟩

theorem tryGetProviderByKey_error (env : Env) (k : Key) (e : InjectorError)
    (h : tryGetProviderByKey env k = .error e) : e = .notFound k := by
  simp only [tryGetProviderByKey] at h
  cases hg : env.registry.get k with
  | some p => rw [hg] at h; exact Except.noConfusion h
  | none =>
    rw [hg] at h
    injection h with h'
    exact h'.symm

theorem tryGetProviderByKey_ok (env : Env) (k : Key) (entry : ProviderEntry)
    (h : tryGetProviderByKey env k = .ok entry) : env.registry.get k = some entry := by
  simp only [tryGetProviderByKey] at h
  cases hg : env.registry.get k with
  | some p =>
    rw [hg] at h
    injection h with h'
    rw [h']
  | none => rw [hg] at h; exact Except.noConfusion h

/-! ## Master induction over the interpreter -/

theorem resolveDeps_ok (env : Env) (tid : Nat) (inj : Inj) (IH : InjOK env tid inj)
    (deps : List Key) :
    ∀ (ctx : CallContext) (w : World),
      (∀ w', resolveDeps inj deps ctx w = .proceed w' →
        StepOK env w w' ∧
          ∀ j k cctx, w.recordAt j k = some cctx → cctx.onThread = tid →
            w'.cacheAt j k = w.cacheAt j k ∧ w'.recordAt j k = some cctx)
      ∧ (∀ e w', resolveDeps inj deps ctx w = .failed e w' →
        StepOK env w w' ∧ e.isEngineError = true ∧
          ∀ j k cctx, w.recordAt j k = some cctx → cctx.onThread = tid →
            w'.cacheAt j k = w.cacheAt j k) := by
  induction deps with
  | nil =>
    intro ctx w
    constructor
    · intro w' h
      simp only [resolveDeps] at h
      injection h with h'
      subst h'
      exact ⟨StepOK.refl env w, fun j k cctx hr _ => ⟨rfl, hr⟩⟩
    · intro e w' h
      simp only [resolveDeps] at h
      exact DepsResult.noConfusion h
  | cons d ds ih =>
    intro ctx w
    constructor
    · intro w' h
      simp only [resolveDeps] at h
      split at h
      · rename_i o w1 heq
        obtain ⟨s1, e1, g1⟩ := IH (ctx.append d) w (.ok o) w1 heq
        obtain ⟨s2, g2⟩ := (ih ctx w1).1 w' h
        refine ⟨s1.trans s2, ?_⟩
        intro j k cctx hr ho
        obtain ⟨hc1, hrec1⟩ := g1 j k cctx hr ho
        obtain ⟨hc2, hrec2⟩ := g2 j k cctx (hrec1 o rfl) ho
        exact ⟨hc2.trans hc1, hrec2⟩
      · rename_i e w1 heq
        exact DepsResult.noConfusion h
      · rename_i s heq
        exact DepsResult.noConfusion h
    · intro e w' h
      simp only [resolveDeps] at h
      split at h
      · rename_i o w1 heq
        obtain ⟨s1, e1, g1⟩ := IH (ctx.append d) w (.ok o) w1 heq
        obtain ⟨s2, he2, g2⟩ := (ih ctx w1).2 e w' h
        refine ⟨s1.trans s2, he2, ?_⟩
        intro j k cctx hr ho
        obtain ⟨hc1, hrec1⟩ := g1 j k cctx hr ho
        exact (g2 j k cctx (hrec1 o rfl) ho).trans hc1
      · rename_i e1 w1 heq
        injection h with h1 h2
        subst h2
        rw [h1] at heq
        obtain ⟨s1, he1, g1⟩ := IH (ctx.append d) w (.error e) w1 heq
        refine ⟨s1, he1 e rfl, ?_⟩
        intro j k cctx hr ho
        exact (g1 j k cctx hr ho).1
      · rename_i s heq
        exact DepsResult.noConfusion h

theorem invokeProvider_ok (env : Env) (tid : Nat) (inj : Inj) (IH : InjOK env tid inj)
    (provider : ProviderBody) (ctx : CallContext) (w : World) :
    ∀ r w', invokeProvider inj provider ctx w = .done r w' →
      RunOK env tid w r w' ∧ ∃ tail, w'.invoked = w.invoked ++ ctx.key :: tail := by
  intro r w' h
  simp only [invokeProvider] at h
  have s0 := StepOK.of_invokedAppend env w [ctx.key]
  split at h
  · rename_i w2 heq
    obtain ⟨s1, g1⟩ :=
      (resolveDeps_ok env tid inj IH provider.deps ctx
        { w with invoked := w.invoked ++ [ctx.key] }).1 w2 heq
    obtain ⟨tail2, htail2⟩ := s1.invoked
    split at h
    · rename_i code hfail
      injection h with h1 h2
      subst h1
      subst h2
      refine ⟨⟨s0.trans s1, ?_, ?_⟩, ?_⟩
      · intro e he
        injection he with he'
        subst he'
        rfl
      · intro j k cctx hr ho
        have hr1 : ({ w with invoked := w.invoked ++ [ctx.key] } : World).recordAt j k =
            some cctx := hr
        obtain ⟨hc, hrec⟩ := g1 j k cctx hr1 ho
        exact ⟨hc, fun o ho' => Except.noConfusion ho'⟩
      · exact ⟨tail2, by simpa using htail2⟩
    · rename_i hfail
      injection h with h1 h2
      subst h1
      subst h2
      refine ⟨⟨(s0.trans s1).trans (StepOK.of_nextId env w2 (w2.nextId + 1)), ?_, ?_⟩, ?_⟩
      · intro e he
        exact Except.noConfusion he
      · intro j k cctx hr ho
        have hr1 : ({ w with invoked := w.invoked ++ [ctx.key] } : World).recordAt j k =
            some cctx := hr
        obtain ⟨hc, hrec⟩ := g1 j k cctx hr1 ho
        exact ⟨hc, fun o _ => hrec⟩
      · exact ⟨tail2, by simpa using htail2⟩
  · rename_i e2 w2 heq
    injection h with h1 h2
    subst h1
    subst h2
    obtain ⟨s1, he1, g1⟩ :=
      (resolveDeps_ok env tid inj IH provider.deps ctx
        { w with invoked := w.invoked ++ [ctx.key] }).2 e2 w2 heq
    obtain ⟨tail2, htail2⟩ := s1.invoked
    refine ⟨⟨s0.trans s1, ?_, ?_⟩, ?_⟩
    · intro e he
      injection he with he'
      subst he'
      exact he1
    · intro j k cctx hr ho
      have hr1 : ({ w with invoked := w.invoked ++ [ctx.key] } : World).recordAt j k =
          some cctx := hr
      exact ⟨g1 j k cctx hr1 ho, fun o ho' => Except.noConfusion ho'⟩
    · exact ⟨tail2, by simpa using htail2⟩
  · rename_i s heq
    exact RunResult.noConfusion h

theorem constructSharedObject_ok (env : Env) (tid : Nat) (inj : Inj)
    (IH : InjOK env tid inj) (cidx : Nat) (provider : ProviderBody)
    (ctx : CallContext) (w : World)
    (k0 : Key) (cdef : ContainerDef) (st : ContainerState)
    (henv : env.containers[cidx]? = some cdef)
    (hreg : env.registry.get ctx.key = some (.shared k0 provider cdef.scope))
    (hst : w.states[cidx]? = some st)
    (hrec0 : w.recordAt cidx ctx.key = none) :
    ∀ r w', constructSharedObject inj tid cidx provider ctx w = .done r w' →
      RunOK env tid w r w' ∧ w'.recordAt cidx ctx.key = none ∧
        (∀ e, r = .error e → w'.cacheAt cidx ctx.key = w.cacheAt cidx ctx.key) ∧
        (∀ o, r = .ok o → w'.cacheAt cidx ctx.key = some o) ∧
        (∃ tail, w'.invoked = w.invoked ++ ctx.key :: tail) := by
  intro r w' h
  simp only [constructSharedObject] at h
  set w1 := w.modifyState cidx fun st =>
    { st with constructing := alistPut st.constructing ctx.key ⟨tid, []⟩ } with hw1
  have hne_self : ∀ j k (cctx : ConstructingObjectContext),
      w.recordAt j k = some cctx → j ≠ cidx ∨ k ≠ ctx.key := by
    intro j k cctx hr
    by_contra hcon
    push_neg at hcon
    obtain ⟨hj, hk⟩ := hcon
    subst hj
    subst hk
    rw [hrec0] at hr
    exact Option.noConfusion hr
  have hrec_w1 : ∀ j k, (j ≠ cidx ∨ k ≠ ctx.key) → w1.recordAt j k = w.recordAt j k := by
    intro j k hjk
    exact recordAt_modifyState_put w cidx ctx.key ⟨tid, []⟩ j k hjk
  have hcache_w1 : ∀ j k, w1.cacheAt j k = w.cacheAt j k := fun j k =>
    cacheAt_modifyState_constructing w cidx _ j k
  have hlen_w1 : w1.states.length = w.states.length := modifyState_len w cidx _
  have hinv_w1 : w1.invoked = w.invoked := modifyState_invoked w cidx _
  have hrec_w1_self : w1.recordAt cidx ctx.key = some ⟨tid, []⟩ :=
    recordAt_modifyState_put_self w cidx ctx.key ⟨tid, []⟩ st hst
  split at h
  · -- provider succeeded
    rename_i object w2 heq
    obtain ⟨⟨s2, he2, g2⟩, tail2, htail2⟩ :=
      invokeProvider_ok env tid inj IH provider ctx w1 (.ok object) w2 heq
    injection h with h1 h2
    subst h1
    subst h2
    set w3 := w2.modifyState cidx fun st =>
      { st with objects := alistPut st.objects ctx.key object } with hw3
    obtain ⟨st2, hst2⟩ := exists_getElem?_of_length_eq (s2.len.trans hlen_w1) hst
    have hcache_w3_self : w3.cacheAt cidx ctx.key = some object :=
      cacheAt_modifyState_put_self w2 cidx ctx.key object st2 hst2
    have hcache_w3 : ∀ j k, (j ≠ cidx ∨ k ≠ ctx.key) → w3.cacheAt j k = w2.cacheAt j k :=
      fun j k hjk => cacheAt_modifyState_put_other w2 cidx ctx.key object j k hjk
    have hrec_w3 : ∀ j k, w3.recordAt j k = w2.recordAt j k := fun j k =>
      recordAt_modifyState_objects w2 cidx _ j k
    set wfin := notifyWaiters w3 cidx ctx.key .constructed with hwfin
    refine ⟨⟨⟨?_, ?_, ?_, ?_⟩, ?_, ?_⟩, ?_, ?_, ?_, ?_⟩
    · exact (notifyWaiters_len w3 cidx ctx.key .constructed).trans
        ((modifyState_len w2 cidx _).trans (s2.len.trans hlen_w1))
    · intro j k hne
      by_cases hjk : j = cidx ∧ k = ctx.key
      · obtain ⟨hj, hk⟩ := hjk
        subst hj
        subst hk
        exact ⟨k0, provider, cdef, henv, hreg⟩
      · have hjk' : j ≠ cidx ∨ k ≠ ctx.key := by tauto
        have : wfin.cacheAt j k = w2.cacheAt j k := by
          rw [notifyWaiters_cacheAt, hcache_w3 j k hjk']
        rw [this, ← hcache_w1 j k] at hne
        exact s2.cache j k hne
    · intro j k hr
      by_cases hjk : j = cidx ∧ k = ctx.key
      · obtain ⟨hj, hk⟩ := hjk
        rw [hj, hk]
        exact notifyWaiters_recordAt_self w3 cidx ctx.key .constructed
      · have hjk' : j ≠ cidx ∨ k ≠ ctx.key := by tauto
        have h2' : w2.recordAt j k = none :=
          s2.record j k ((hrec_w1 j k hjk').trans hr)
        exact notifyWaiters_record_clean w3 cidx ctx.key .constructed j k
          ((hrec_w3 j k).trans h2')
    · obtain ⟨t2, ht2⟩ := s2.invoked
      refine ⟨t2, ?_⟩
      rw [notifyWaiters_invoked, modifyState_invoked, ht2, hinv_w1]
    · intro e he
      exact Except.noConfusion he
    · intro j k cctx hr ho
      have hjk := hne_self j k cctx hr
      obtain ⟨hc2, hrec2⟩ := g2 j k cctx ((hrec_w1 j k hjk).trans hr) ho
      constructor
      · rw [notifyWaiters_cacheAt, hcache_w3 j k hjk, hc2, hcache_w1]
      · intro o _
        rw [notifyWaiters_recordAt_other w3 cidx ctx.key .constructed j k hjk,
          hrec_w3 j k]
        exact hrec2 object rfl
    · exact notifyWaiters_recordAt_self w3 cidx ctx.key .constructed
    · intro e he
      exact Except.noConfusion he
    · intro o ho
      injection ho with ho'
      subst ho'
      rw [notifyWaiters_cacheAt]
      exact hcache_w3_self
    · exact ⟨tail2, by rw [notifyWaiters_invoked, modifyState_invoked, htail2, hinv_w1]⟩
  · -- provider failed
    rename_i err w2 heq
    obtain ⟨⟨s2, he2, g2⟩, tail2, htail2⟩ :=
      invokeProvider_ok env tid inj IH provider ctx w1 (.error err) w2 heq
    injection h with h1 h2
    subst h1
    subst h2
    set wfin := notifyWaiters w2 cidx ctx.key (.error err) with hwfin
    have hcache_err : wfin.cacheAt cidx ctx.key = w.cacheAt cidx ctx.key := by
      rw [notifyWaiters_cacheAt]
      have := (g2 cidx ctx.key ⟨tid, []⟩ hrec_w1_self rfl).1
      rw [this, hcache_w1]
    refine ⟨⟨⟨?_, ?_, ?_, ?_⟩, ?_, ?_⟩, ?_, ?_, ?_, ?_⟩
    · exact (notifyWaiters_len w2 cidx ctx.key (.error err)).trans
        (s2.len.trans hlen_w1)
    · intro j k hne
      by_cases hjk : j = cidx ∧ k = ctx.key
      · obtain ⟨hj, hk⟩ := hjk
        subst hj
        subst hk
        exact ⟨k0, provider, cdef, henv, hreg⟩
      · have hjk' : j ≠ cidx ∨ k ≠ ctx.key := by tauto
        rw [notifyWaiters_cacheAt, ← hcache_w1 j k] at hne
        exact s2.cache j k hne
    · intro j k hr
      by_cases hjk : j = cidx ∧ k = ctx.key
      · obtain ⟨hj, hk⟩ := hjk
        rw [hj, hk]
        exact notifyWaiters_recordAt_self w2 cidx ctx.key _
      · have hjk' : j ≠ cidx ∨ k ≠ ctx.key := by tauto
        exact notifyWaiters_record_clean w2 cidx ctx.key _ j k
          (s2.record j k ((hrec_w1 j k hjk').trans hr))
    · obtain ⟨t2, ht2⟩ := s2.invoked
      exact ⟨t2, by rw [notifyWaiters_invoked, ht2, hinv_w1]⟩
    · intro e he
      injection he with he'
      subst he'
      exact he2 err rfl
    · intro j k cctx hr ho
      have hjk := hne_self j k cctx hr
      obtain ⟨hc2, _⟩ := g2 j k cctx ((hrec_w1 j k hjk).trans hr) ho
      constructor
      · rw [notifyWaiters_cacheAt, hc2, hcache_w1]
      · intro o ho'
        exact Except.noConfusion ho'
    · exact notifyWaiters_recordAt_self w2 cidx ctx.key _
    · intro e _
      exact hcache_err
    · intro o ho
      exact Except.noConfusion ho
    · exact ⟨tail2, by rw [notifyWaiters_invoked, htail2, hinv_w1]⟩
  · rename_i s heq
    exact RunResult.noConfusion h

theorem getSharedObjectFromSelf_ok (env : Env) (tid : Nat) (inj : Inj)
    (IH : InjOK env tid inj) (cidx : Nat) (provider : ProviderBody)
    (ctx : CallContext) (w : World)
    (k0 : Key) (cdef : ContainerDef) (st : ContainerState)
    (henv : env.containers[cidx]? = some cdef)
    (hreg : env.registry.get ctx.key = some (.shared k0 provider cdef.scope))
    (hst : w.states[cidx]? = some st) :
    ∀ r w', getSharedObjectFromSelf inj tid cidx provider ctx w = .done r w' →
      RunOK env tid w r w' ∧ w'.recordAt cidx ctx.key = none ∧
        (∀ e, r = .error e → w'.cacheAt cidx ctx.key = w.cacheAt cidx ctx.key) ∧
        (∀ o, r = .ok o → w'.cacheAt cidx ctx.key = some o) := by
  intro r w' h
  simp only [getSharedObjectFromSelf] at h
  split at h
  · rename_i cctx hrec
    split at h
    · rename_i hown
      simp only [stopConstructionOnCyclicDependency] at h
      injection h with h1 h2
      subst h1
      subst h2
      refine ⟨⟨StepOK.of_notifyWaiters env w cidx ctx.key _, ?_, ?_⟩, ?_, ?_, ?_⟩
      · intro e he
        injection he with he'
        subst he'
        rfl
      · intro j k cctx' hr ho
        exact ⟨notifyWaiters_cacheAt w cidx ctx.key _ j k,
          fun o ho' => Except.noConfusion ho'⟩
      · exact notifyWaiters_recordAt_self w cidx ctx.key _
      · intro e _
        exact notifyWaiters_cacheAt w cidx ctx.key _ cidx ctx.key
      · intro o ho
        exact Except.noConfusion ho
    · exact RunResult.noConfusion h
  · rename_i hrec
    obtain ⟨hrok, hr1, hr2, hr3, _⟩ :=
      constructSharedObject_ok env tid inj IH cidx provider ctx w k0 cdef st henv hreg
        hst hrec r w' h
    exact ⟨hrok, hr1, hr2, hr3⟩

theorem getUnboundedObjectFromSelf_ok (env : Env) (tid : Nat) (inj : Inj)
    (IH : InjOK env tid inj) (provider : ProviderBody) (ctx : CallContext)
    (w : World) :
    ∀ r w', getUnboundedObjectFromSelf inj provider ctx w = .done r w' →
      RunOK env tid w r w' := by
  intro r w' h
  simp only [getUnboundedObjectFromSelf] at h
  split at h
  · injection h with h1 h2
    subst h1
    subst h2
    refine ⟨StepOK.refl env w, ?_, ?_⟩
    · intro e he
      injection he with he'
      subst he'
      rfl
    · intro j k cctx hr ho
      exact ⟨rfl, fun o ho' => Except.noConfusion ho'⟩
  · exact (invokeProvider_ok env tid inj IH provider ctx w r w' h).1

theorem getObject_ok (env : Env) (tid : Nat) : ∀ fuel, GetOK env tid fuel := by
  intro fuel
  induction fuel with
  | zero =>
    intro cidx ctx w r w' h
    simp only [getObject] at h
    exact RunResult.noConfusion h
  | succ n ihn =>
    intro cidx ctx w r w' h
    simp only [getObject] at h
    split at h
    · rename_i st cdef hst henv
      split at h
      · -- cache hit
        rename_i object hobj
        injection h with h1 h2
        subst h1
        subst h2
        refine ⟨StepOK.refl env w, ?_, ?_⟩
        · intro e he
          exact Except.noConfusion he
        · intro j k cctx hr ho
          exact ⟨rfl, fun o _ => hr⟩
      · rename_i hmiss
        split at h
        · -- registry miss
          rename_i e hpe
          injection h with h1 h2
          subst h1
          subst h2
          have he := tryGetProviderByKey_error env ctx.key e hpe
          subst he
          refine ⟨StepOK.refl env w, ?_, ?_⟩
          · intro e' he'
            injection he' with he''
            subst he''
            rfl
          · intro j k cctx hr ho
            exact ⟨rfl, fun o ho' => Except.noConfusion ho'⟩
        · -- shared provider
          rename_i ekey provider scope hpe
          have hreg := tryGetProviderByKey_ok env ctx.key _ hpe
          split at h
          · -- forwarded to the parent
            rename_i hfwd
            split at h
            · rename_i parent hparent
              exact ihn parent ctx w r w' h
            · exact RunResult.noConfusion h
          · rename_i hfwd
            split at h
            · -- bound at this container's scope
              rename_i hscope
              subst hscope
              exact (getSharedObjectFromSelf_ok env tid (getObject env tid n cidx)
                (fun ctx' w' r' w'' h' => ihn cidx ctx' w' r' w'' h') cidx provider
                ctx w ekey cdef st henv hreg hst r w' h).1
            · -- bound strictly within: unbounded construction
              rename_i hscope
              exact getUnboundedObjectFromSelf_ok env tid (getObject env tid n cidx)
                (fun ctx' w' r' w'' h' => ihn cidx ctx' w' r' w'' h') provider ctx w
                r w' h
        · -- owned provider
          rename_i ekey provider hpe
          exact getUnboundedObjectFromSelf_ok env tid (getObject env tid n cidx)
            (fun ctx' w' r' w'' h' => ihn cidx ctx' w' r' w'' h') provider ctx w r w' h
    · exact RunResult.noConfusion h

/-- The injector `get_object` hands to the helpers satisfies the run
invariants. -/
theorem injOK_getObject (env : Env) (tid fuel cidx : Nat) :
    InjOK env tid (getObject env tid fuel cidx) :=
  fun ctx w r w' h => getObject_ok env tid fuel cidx ctx w r w' h

theorem CallContext.key_new (k : Key) : (CallContext.new k).key = k := rfl

theorem CallContext.key_append (c : CallContext) (k : Key) : (c.append k).key = k := rfl

theorem previousExistKey_new (k k' : Key) :
    (InjectionTrace.new k).previousExistKey k' = false := rfl

theorem trace_new (k : Key) : (CallContext.new k).trace = InjectionTrace.new k := rfl

/-! ## Lemmas about collection assembly -/

theorem collectObjects_of_all_ok (dynget : Key → Except InjectorError Obj) (tt : Nat)
    (ks : List Key) (h : ∀ k ∈ ks, ∃ o, dynget k = .ok o ∧ o.typeTag = tt) :
    ∃ objs, collectObjects dynget tt ks = .ok objs ∧ objs.length = ks.length := by
  induction ks with
  | nil => exact ⟨[], rfl, rfl⟩
  | cons k ks ih =>
    obtain ⟨o, ho, htag⟩ := h k (by simp)
    obtain ⟨objs, hobjs, hlen⟩ := ih fun k' hk' => h k' (by simp [hk'])
    exact ⟨o :: objs, by simp [collectObjects, ho, htag, hobjs], by simp [hlen]⟩

/-- Success of a resolution of a Key bound shared at the resolving
container's own scope leaves the returned object in that container's cache
(this is the cache-population half of `construct_shared_object`, or a cache
hit to begin with). -/
theorem getObject_shared_success_cache (env : Env) (tid fuel cidx : Nat)
    (ctx : CallContext) (w w1 : World) (obj : Obj) (cdef : ContainerDef)
    (st : ContainerState) (k0 : Key) (provider : ProviderBody)
    (henv : env.containers[cidx]? = some cdef)
    (hst : w.states[cidx]? = some st)
    (hreg : env.registry.get ctx.key = some (.shared k0 provider cdef.scope))
    (hrun : getObject env tid (fuel + 1) cidx ctx w = .done (.ok obj) w1) :
    w1.cacheAt cidx ctx.key = some obj := by
  have hfwd : shouldForwardRequestToParent cdef.scope cdef.scope = false := by
    simp [shouldForwardRequestToParent]
  simp only [getObject, hst, henv] at hrun
  split at hrun
  · rename_i object hobj
    injection hrun with h1 h2
    injection h1 with h1
    subst h1
    subst h2
    simp only [World.cacheAt, hst]
    simpa [tryGetConstructedObject] using hobj
  · rename_i hmiss
    split at hrun
    · rename_i e hpe
      exact absurd hrun (by simp)
    · rename_i ekey provider2 scope hpe
      have hreg2 := tryGetProviderByKey_ok env ctx.key _ hpe
      rw [hreg] at hreg2
      injection hreg2 with hreg3
      cases hreg3
      rw [hfwd] at hrun
      simp only [Bool.false_eq_true, if_false, if_pos rfl] at hrun
      obtain ⟨_, _, _, hok⟩ :=
        getSharedObjectFromSelf_ok env tid (getObject env tid fuel cidx)
          (injOK_getObject env tid fuel cidx) cidx
          provider ctx w k0 cdef st henv hreg hst (.ok obj) w1 hrun
      exact hok obj rfl
    · rename_i ekey provider2 hpe
      have hreg2 := tryGetProviderByKey_ok env ctx.key _ hpe
      rw [hreg] at hreg2
      exact absurd hreg2 (by simp)

/-- A cache hit returns the cached object and leaves the world unchanged. -/
theorem getObject_cache_hit (env : Env) (tid m cidx : Nat) (ctx : CallContext)
    (w : World) (obj : Obj) (cdef : ContainerDef) (st : ContainerState)
    (henv : env.containers[cidx]? = some cdef)
    (hst : w.states[cidx]? = some st)
    (hhit : alistGet st.objects ctx.key = some obj) :
    getObject env tid (m + 1) cidx ctx w = .done (.ok obj) w := by
  simp only [getObject, hst, henv, tryGetConstructedObject, hhit]

/-- A resolution of a Key bound shared to a scope that strictly outlives the
resolving container's scope is delegated to the parent container. -/
theorem getObject_forwards_to_parent (env : Env) (tid fuel cidx : Nat)
    (ctx : CallContext) (w : World) (cdef : ContainerDef) (st : ContainerState)
    (k0 : Key) (provider : ProviderBody) (s parent : Nat)
    (henv : env.containers[cidx]? = some cdef)
    (hst : w.states[cidx]? = some st)
    (hmiss : alistGet st.objects ctx.key = none)
    (hreg : env.registry.get ctx.key = some (.shared k0 provider s))
    (houtlive : cdef.scope < s)
    (hparent : cdef.parent = some parent) :
    getObject env tid (fuel + 1) cidx ctx w = getObject env tid fuel parent ctx w := by
  have hfwd : shouldForwardRequestToParent cdef.scope s = true := by
    simp only [shouldForwardRequestToParent, scopeOutlive]
    simp only [Bool.and_eq_true, decide_eq_true_eq]
    omega
  simp only [getObject, hst, henv, tryGetConstructedObject, hmiss,
    tryGetProviderByKey, hreg, hfwd, if_true, hparent]

/-! ## Claim C7 -/

/-- Claim C7, counterexample: on the typed `get` path of the `iocc` tree, a
type-erased result that does not downcast to the expected target type does
not produce a `TypeMismatched` error value — it hits the
`unreachable!("the object's type should be K::Target")` assertion (a panic),
and the `InjectorError` enum of this tree has no `TypeMismatched` variant at
all. -/
theorem typedGet_mismatch_hits_unreachable :
    typedGet (.ok ⟨0, 0, 0⟩) 1 = .panicked := rfl

/-- Claim C7, amended: whenever the type-erased result of a resolution does
not downcast to the statically expected target type on the typed `get` path,
the caller does not receive an error value: the code asserts the case
unreachable and panics.  A successful downcast returns the object, and a
`dyn_get` error is propagated unchanged. -/
theorem typedGet_downcast_dispatch (dynResult : Except InjectorError Obj) (expected : Nat) :
    (typedGet dynResult expected = .panicked ↔
      ∃ o, dynResult = .ok o ∧ o.typeTag ≠ expected)
    ∧ (∀ e, typedGet dynResult expected = .err e ↔ dynResult = .error e)
    ∧ (∀ o, dynResult = .ok o → o.typeTag = expected →
        typedGet dynResult expected = .ok o) := by
  refine ⟨?_, ?_, ?_⟩
  · cases dynResult with
    | ok o => by_cases h : o.typeTag = expected <;> simp [typedGet, h]
    | error e => simp [typedGet]
  · intro e
    cases dynResult with
    | ok o => by_cases h : o.typeTag = expected <;> simp [typedGet, h]
    | error e' => simp [typedGet]
  · intro o ho htag
    subst ho
    simp [typedGet, htag]

/-- Witness for `typedGet_downcast_dispatch` at a concrete mismatched
result. -/
theorem typedGet_downcast_dispatch_witness :
    typedGet (.ok ⟨2, 5, 0⟩) 3 = .panicked :=
  (typedGet_downcast_dispatch (.ok ⟨2, 5, 0⟩) 3).1.mpr ⟨⟨2, 5, 0⟩, rfl, by decide⟩

/-! ## Claim C9 -/

/-- Claim C9: registering a second provider under an already-registered Key
records a `KeyDuplicated` error and leaves the registry untouched (for both
the owned and the shared registration paths); every registration appends to
the accumulated error list without discarding earlier entries; and `finish`
returns the frozen registry exactly when no error was recorded, otherwise it
reports the entire accumulated list. -/
theorem configurer_duplicate_key_accumulates (c : ConfigurerImpl) (key : Key)
    (p q : ProviderBody) (scope : Nat) (entry : ProviderEntry)
    (hdup : c.providers.get key = some entry) :
    ((c.dynRegister key p).providers = c.providers ∧
      (c.dynRegister key p).errors = c.errors ++ [RegistryError.keyDuplicated key])
    ∧ ((c.dynRegisterShared key q scope).providers = c.providers ∧
      (c.dynRegisterShared key q scope).errors =
        c.errors ++ [RegistryError.keyDuplicated key])
    ∧ (∀ (c' : ConfigurerImpl) (k' : Key) (p' : ProviderBody), ∃ tail,
        (ConfigurerImpl.dynRegister c' k' p').errors = c'.errors ++ tail)
    ∧ (∀ c' : ConfigurerImpl,
        (c'.errors = [] → c'.finish = .ok c'.providers) ∧
        (c'.errors ≠ [] → c'.finish = .error c'.errors)) := by
  refine ⟨⟨?_, ?_⟩, ⟨?_, ?_⟩, ?_, ?_⟩
  · simp [ConfigurerImpl.dynRegister, hdup]
  · simp [ConfigurerImpl.dynRegister, hdup]
  · simp [ConfigurerImpl.dynRegisterShared, hdup]
  · simp [ConfigurerImpl.dynRegisterShared, hdup]
  · intro c' k' p'
    by_cases h : (c'.providers.get k').isNone
    · exact ⟨[], by simp [ConfigurerImpl.dynRegister, h]⟩
    · exact ⟨[.keyDuplicated k'], by simp [ConfigurerImpl.dynRegister, h]⟩
  · intro c'
    constructor
    · intro h
      simp [ConfigurerImpl.finish, h]
    · intro h
      simp [ConfigurerImpl.finish, List.isEmpty_iff, h]

/-- Witness for `configurer_duplicate_key_accumulates` on a concrete
configuration pass that registers the same key twice. -/
theorem configurer_duplicate_key_accumulates_witness :
    (let c := ConfigurerImpl.new.dynRegister ⟨1, 0⟩ ⟨[], none, 5⟩
     ((c.dynRegister ⟨1, 0⟩ ⟨[], none, 6⟩).providers = c.providers ∧
       (c.dynRegister ⟨1, 0⟩ ⟨[], none, 6⟩).errors =
         c.errors ++ [RegistryError.keyDuplicated ⟨1, 0⟩])
     ∧ ((c.dynRegisterShared ⟨1, 0⟩ ⟨[], none, 7⟩ 2).providers = c.providers ∧
       (c.dynRegisterShared ⟨1, 0⟩ ⟨[], none, 7⟩ 2).errors =
         c.errors ++ [RegistryError.keyDuplicated ⟨1, 0⟩])
     ∧ (∀ (c' : ConfigurerImpl) (k' : Key) (p' : ProviderBody), ∃ tail,
         (ConfigurerImpl.dynRegister c' k' p').errors = c'.errors ++ tail)
     ∧ (∀ c' : ConfigurerImpl,
         (c'.errors = [] → c'.finish = .ok c'.providers) ∧
         (c'.errors ≠ [] → c'.finish = .error c'.errors))) :=
  configurer_duplicate_key_accumulates _ ⟨1, 0⟩ ⟨[], none, 6⟩ ⟨[], none, 7⟩ 2
    (.owned ⟨1, 0⟩ ⟨[], none, 5⟩) (by decide)

/-! ## Claim C10 -/

/-- Claim C10: a collection query whose pattern matches zero enumerated Keys
returns the `EmptyCollection` error rather than an empty collection value;
if at least one Key matches and every matched resolution succeeds (with the
well-typed objects the engine produces), a non-empty collection is
returned — in particular `EmptyCollection` is not returned in that case. -/
theorem collect_empty_collection_policy (dynget : Key → Except InjectorError Obj)
    (m : ProviderMap) (targetType : Nat) (pattern : Key → Bool) (collection pat : Nat) :
    (((m.keysOf targetType).filter fun k => k.target == targetType && pattern k) = [] →
      typedCollect dynget m targetType pattern collection pat =
        .err (.emptyCollection collection pat))
    ∧ (((m.keysOf targetType).filter fun k => k.target == targetType && pattern k) ≠ [] →
      (∀ k ∈ (m.keysOf targetType).filter fun k => k.target == targetType && pattern k,
        ∃ o, dynget k = .ok o ∧ o.typeTag = targetType) →
      ∃ objects,
        typedCollect dynget m targetType pattern collection pat = .ok objects ∧
          objects ≠ []) := by
  constructor
  · intro h
    simp [typedCollect, collect, h, collectObjects]
  · intro hne hok
    obtain ⟨objs, hobjs, hlen⟩ := collectObjects_of_all_ok dynget targetType _ hok
    have hobjs_ne : objs ≠ [] := by
      intro h
      subst h
      exact hne (List.length_eq_zero.mp hlen.symm)
    refine ⟨objs, ?_, hobjs_ne⟩
    have hnil : ¬ objs.isEmpty := by simp [List.isEmpty_iff, hobjs_ne]
    simp [typedCollect, collect, hobjs, hnil]

/-- Witness for `collect_empty_collection_policy`: one registered matching
key, resolved successfully, yields a non-empty collection. -/
theorem collect_empty_collection_policy_witness :
    ∃ objects,
      typedCollect (fun k => .ok ⟨k.target, 0, 0⟩)
          (ProviderMap.new.insert ⟨1, 0⟩ ⟨[], none, 5⟩) 1 (fun _ => true) 8 9 =
        .ok objects ∧ objects ≠ [] :=
  (collect_empty_collection_policy (fun k => .ok ⟨k.target, 0, 0⟩)
      (ProviderMap.new.insert ⟨1, 0⟩ ⟨[], none, 5⟩) 1 (fun _ => true) 8 9).2
    (by decide)
    (by
      intro k hk
      have hk' : k = ⟨1, 0⟩ := by
        simpa [ProviderMap.new, ProviderMap.insert, ProviderMap.insertImpl,
          ProviderMap.keysOf, alistGet, alistPut, ProviderEntry.dynKey] using hk
      subst hk'
      exact ⟨⟨1, 0, 0⟩, rfl, rfl⟩)

/-! ## Claim C3 -/

/-- Claim C3: on the transient (Owned) path, a Key that already occurs among
the earlier links of the current call-stack trace fails with
`CyclicDependency` before the provider is invoked (the world, in particular
the invocation log, is unchanged); a resolution of the same Key from a fresh
top-level `CallContext` passes the trace check and proceeds to invoke the
provider. -/
theorem transient_trace_cycle_detection (env : Env) (tid fuel cidx : Nat)
    (ctx : CallContext) (w : World) (cdef : ContainerDef) (st : ContainerState)
    (k0 : Key) (provider : ProviderBody)
    (henv : env.containers[cidx]? = some cdef)
    (hst : w.states[cidx]? = some st)
    (hmiss : alistGet st.objects ctx.key = none)
    (hreg : env.registry.get ctx.key = some (.owned k0 provider)) :
    (ctx.trace.previousExistKey ctx.key = true →
      getObject env tid (fuel + 1) cidx ctx w =
        .done (.error (.cyclicDependency ctx.key)) w)
    ∧ (InjectionTrace.previousExistKey (InjectionTrace.new ctx.key) ctx.key = false
      ∧ getObject env tid (fuel + 1) cidx (CallContext.new ctx.key) w =
          invokeProvider (getObject env tid fuel cidx) provider
            (CallContext.new ctx.key) w) := by
  refine ⟨?_, rfl, ?_⟩
  · intro hcyc
    simp [getObject, hst, henv, tryGetConstructedObject, hmiss, tryGetProviderByKey,
      hreg, getUnboundedObjectFromSelf, hcyc]
  · simp only [getObject, hst, henv, tryGetConstructedObject, CallContext.key_new,
      hmiss, tryGetProviderByKey, hreg, getUnboundedObjectFromSelf, trace_new,
      previousExistKey_new, Bool.false_eq_true, if_false]

/-- Witness for `transient_trace_cycle_detection`: a self-dependent transient
key, re-entered once, fails with `CyclicDependency` and leaves the world
untouched. -/
theorem transient_trace_cycle_detection_witness :
    getObject ⟨[⟨none, 0⟩], ProviderMap.new.insert ⟨2, 0⟩ ⟨[⟨2, 0⟩], none, 0⟩⟩ 0 (3 + 1) 0
        ((CallContext.new ⟨2, 0⟩).append ⟨2, 0⟩) (World.init 1) =
      .done (.error (.cyclicDependency ⟨2, 0⟩)) (World.init 1) :=
  (transient_trace_cycle_detection
      ⟨[⟨none, 0⟩], ProviderMap.new.insert ⟨2, 0⟩ ⟨[⟨2, 0⟩], none, 0⟩⟩ 0 3 0
      ((CallContext.new ⟨2, 0⟩).append ⟨2, 0⟩) (World.init 1) ⟨none, 0⟩
      ContainerState.new ⟨2, 0⟩ ⟨[⟨2, 0⟩], none, 0⟩ (by decide) (by decide) (by decide)
      (by decide)).1 (by decide)

/-! ## Claim C2 -/

/-- Claim C2: resolving a shared Key bound at the container's own scope while
the in-progress record for that Key is owned by the current thread (a
same-thread re-entry) fails with `CyclicDependency`, removes the record, and
sends that same `CyclicDependency` error to every waiter already queued on
the record; the provider is not invoked. -/
theorem shared_reentry_cyclic_broadcast (env : Env) (tid fuel cidx : Nat)
    (ctx : CallContext) (w : World) (cdef : ContainerDef) (st : ContainerState)
    (k0 : Key) (provider : ProviderBody) (ws : List Nat)
    (henv : env.containers[cidx]? = some cdef)
    (hst : w.states[cidx]? = some st)
    (hmiss : alistGet st.objects ctx.key = none)
    (hreg : env.registry.get ctx.key = some (.shared k0 provider cdef.scope))
    (hrec : alistGet st.constructing ctx.key = some ⟨tid, ws⟩) :
    ∃ w',
      getObject env tid (fuel + 1) cidx ctx w =
        .done (.error (.cyclicDependency ctx.key)) w'
      ∧ w'.notes = w.notes ++
          ws.map (fun s => (s, WaitResponse.error (.cyclicDependency ctx.key)))
      ∧ w'.recordAt cidx ctx.key = none
      ∧ w'.invoked = w.invoked := by
  have hrecw : w.recordAt cidx ctx.key = some ⟨tid, ws⟩ := by
    simp [World.recordAt, hst, hrec]
  have hfwd : shouldForwardRequestToParent cdef.scope cdef.scope = false := by
    simp [shouldForwardRequestToParent]
  refine ⟨notifyWaiters w cidx ctx.key (.error (.cyclicDependency ctx.key)), ?_, ?_, ?_, ?_⟩
  · simp only [getObject, hst, henv, tryGetConstructedObject, hmiss,
      tryGetProviderByKey, hreg, hfwd, Bool.false_eq_true, if_false, if_pos rfl,
      getSharedObjectFromSelf, hrecw, stopConstructionOnCyclicDependency]
    simp
  · rw [notifyWaiters_notes_of_record w cidx ctx.key _ ⟨tid, ws⟩ hrecw]
    simp [ConstructingObjectContext.notify]
  · exact notifyWaiters_recordAt_self w cidx ctx.key _
  · exact notifyWaiters_invoked w cidx ctx.key _

/-- Witness for `shared_reentry_cyclic_broadcast`: two waiters are queued on
a record owned by the current thread; re-entry broadcasts `CyclicDependency`
to both. -/
theorem shared_reentry_cyclic_broadcast_witness :
    ∃ w',
      getObject ⟨[⟨none, 0⟩], ProviderMap.new.insertShared ⟨1, 0⟩ ⟨[], none, 3⟩ 0⟩ 0
          (5 + 1) 0 (CallContext.new ⟨1, 0⟩)
          ⟨[⟨[], [(⟨1, 0⟩, ⟨0, [5, 6]⟩)]⟩], 0, [], []⟩ =
        .done (.error (.cyclicDependency (CallContext.new ⟨1, 0⟩).key)) w'
      ∧ w'.notes = (⟨[⟨[], [(⟨1, 0⟩, ⟨0, [5, 6]⟩)]⟩], 0, [], []⟩ : World).notes ++
          [5, 6].map (fun s =>
            (s, WaitResponse.error (.cyclicDependency (CallContext.new ⟨1, 0⟩).key)))
      ∧ w'.recordAt 0 (CallContext.new ⟨1, 0⟩).key = none
      ∧ w'.invoked = (⟨[⟨[], [(⟨1, 0⟩, ⟨0, [5, 6]⟩)]⟩], 0, [], []⟩ : World).invoked :=
  shared_reentry_cyclic_broadcast
    ⟨[⟨none, 0⟩], ProviderMap.new.insertShared ⟨1, 0⟩ ⟨[], none, 3⟩ 0⟩ 0 5 0
    (CallContext.new ⟨1, 0⟩) ⟨[⟨[], [(⟨1, 0⟩, ⟨0, [5, 6]⟩)]⟩], 0, [], []⟩ ⟨none, 0⟩
    ⟨[], [(⟨1, 0⟩, ⟨0, [5, 6]⟩)]⟩ ⟨1, 0⟩ ⟨[], none, 3⟩ [5, 6] (by decide) (by decide)
    (by decide) (by decide) (by decide)

/-! ## Claim C8 -/

/-- Claim C8: after one successful resolution of a Key bound to a shared
provider at the container's own scope, the returned object sits in that
container's cache, and a second sequential resolution of the same Key on the
same container returns the very same object (same allocation identity) with
the world unchanged — in particular without invoking the provider again. -/
theorem shared_cache_idempotent (env : Env) (tid fuel cidx : Nat) (ctx : CallContext)
    (w w1 : World) (obj : Obj) (cdef : ContainerDef) (st : ContainerState)
    (k0 : Key) (provider : ProviderBody)
    (henv : env.containers[cidx]? = some cdef)
    (hst : w.states[cidx]? = some st)
    (hreg : env.registry.get ctx.key = some (.shared k0 provider cdef.scope))
    (hrun : getObject env tid (fuel + 1) cidx ctx w = .done (.ok obj) w1) :
    w1.cacheAt cidx ctx.key = some obj
    ∧ ∀ m, getObject env tid (m + 1) cidx (CallContext.new ctx.key) w1 =
        .done (.ok obj) w1 := by
  have hfwd : shouldForwardRequestToParent cdef.scope cdef.scope = false := by
    simp [shouldForwardRequestToParent]
  have hcache : w1.cacheAt cidx ctx.key = some obj := by
    simp only [getObject, hst, henv] at hrun
    split at hrun
    · rename_i object hobj
      injection hrun with h1 h2
      injection h1 with h1
      subst h1
      subst h2
      simp only [World.cacheAt, hst]
      simpa [tryGetConstructedObject] using hobj
    · rename_i hmiss
      split at hrun
      · rename_i e hpe
        exact absurd hrun (by simp)
      · rename_i ekey provider2 scope hpe
        have hreg2 := tryGetProviderByKey_ok env ctx.key _ hpe
        rw [hreg] at hreg2
        injection hreg2 with hreg3
        cases hreg3
        rw [hfwd] at hrun
        simp only [Bool.false_eq_true, if_false, if_pos rfl] at hrun
        obtain ⟨_, _, _, hok⟩ :=
          getSharedObjectFromSelf_ok env tid (getObject env tid fuel cidx)
            (injOK_getObject env tid fuel cidx) cidx
            provider ctx w k0 cdef st henv hreg hst (.ok obj) w1 hrun
        exact hok obj rfl
      · rename_i ekey provider2 hpe
        have hreg2 := tryGetProviderByKey_ok env ctx.key _ hpe
        rw [hreg] at hreg2
        exact absurd hreg2 (by simp)
  refine ⟨hcache, ?_⟩
  intro m
  obtain ⟨st1, hst1⟩ : ∃ st1, w1.states[cidx]? = some st1 := by
    simp only [World.cacheAt] at hcache
    cases hg : w1.states[cidx]? with
    | none => rw [hg] at hcache; exact Option.noConfusion hcache
    | some st1 => exact ⟨st1, rfl⟩
  have hhit : tryGetConstructedObject st1 (CallContext.new ctx.key).key = some obj := by
    simp only [World.cacheAt, hst1] at hcache
    simpa [tryGetConstructedObject, CallContext.key_new] using hcache
  simp only [getObject, hst1, henv, hhit]


/-- Witness for `shared_cache_idempotent`: a concrete successful first
resolution, then the cached result. -/
theorem shared_cache_idempotent_witness :
    (⟨[⟨[(⟨1, 0⟩, ⟨1, 10, 0⟩)], []⟩], 1, [⟨1, 0⟩], []⟩ : World).cacheAt 0
        (CallContext.new ⟨1, 0⟩).key = some ⟨1, 10, 0⟩
    ∧ ∀ m, getObject ⟨[⟨none, 0⟩], ProviderMap.new.insertShared ⟨1, 0⟩ ⟨[], none, 10⟩ 0⟩ 0
        (m + 1) 0 (CallContext.new (CallContext.new ⟨1, 0⟩).key)
        ⟨[⟨[(⟨1, 0⟩, ⟨1, 10, 0⟩)], []⟩], 1, [⟨1, 0⟩], []⟩ =
      .done (.ok ⟨1, 10, 0⟩) ⟨[⟨[(⟨1, 0⟩, ⟨1, 10, 0⟩)], []⟩], 1, [⟨1, 0⟩], []⟩ :=
  shared_cache_idempotent ⟨[⟨none, 0⟩], ProviderMap.new.insertShared ⟨1, 0⟩ ⟨[], none, 10⟩ 0⟩
    0 5 0 (CallContext.new ⟨1, 0⟩) (World.init 1)
    ⟨[⟨[(⟨1, 0⟩, ⟨1, 10, 0⟩)], []⟩], 1, [⟨1, 0⟩], []⟩ ⟨1, 10, 0⟩ ⟨none, 0⟩
    ContainerState.new ⟨1, 0⟩ ⟨[], none, 10⟩ (by decide) (by decide) (by decide)
    (by decide)

/-! ## Claim C4 -/

/-- Claim C4: a Key bound to a shared provider whose scope is strictly within
the resolving container's scope is constructed as an unbounded object through
the same provider (the dispatch lands in `get_unbounded_object_from_self`,
the transient path, so the call-stack-trace cycle check applies exactly as
for a transient provider); the result is not inserted into the container's
cache, no in-progress record is created, and no `ShortLifetime` error is
returned. -/
theorem shared_within_scope_unbounded (env : Env) (tid fuel cidx : Nat)
    (ctx : CallContext) (w : World) (cdef : ContainerDef) (st : ContainerState)
    (k0 : Key) (provider : ProviderBody) (s : Nat)
    (henv : env.containers[cidx]? = some cdef)
    (hst : w.states[cidx]? = some st)
    (hmiss : alistGet st.objects ctx.key = none)
    (hreg : env.registry.get ctx.key = some (.shared k0 provider s))
    (hwithin : s < cdef.scope)
    (hrec0 : alistGet st.constructing ctx.key = none) :
    getObject env tid (fuel + 1) cidx ctx w =
      getUnboundedObjectFromSelf (getObject env tid fuel cidx) provider ctx w
    ∧ (ctx.trace.previousExistKey ctx.key = true →
        getObject env tid (fuel + 1) cidx ctx w =
          .done (.error (.cyclicDependency ctx.key)) w)
    ∧ (∀ r w', getObject env tid (fuel + 1) cidx ctx w = .done r w' →
        w'.cacheAt cidx ctx.key = w.cacheAt cidx ctx.key
        ∧ w'.recordAt cidx ctx.key = none
        ∧ ∀ e, r = .error e →
            e.isEngineError = true ∧ ∀ kk ll ss, e ≠ .shortLifetime kk ll ss) := by
  have hfwd : shouldForwardRequestToParent cdef.scope s = false := by
    simp only [shouldForwardRequestToParent, scopeOutlive]
    simp only [Bool.and_eq_false_imp, decide_eq_true_eq, decide_eq_false_iff_not,
      Decidable.not_not]
    omega
  have hdisp : getObject env tid (fuel + 1) cidx ctx w =
      getUnboundedObjectFromSelf (getObject env tid fuel cidx) provider ctx w := by
    simp only [getObject, hst, henv, tryGetConstructedObject, hmiss,
      tryGetProviderByKey, hreg, hfwd, Bool.false_eq_true, if_false,
      if_neg (show ¬ s = cdef.scope by omega)]
  refine ⟨hdisp, ?_, ?_⟩
  · intro hcyc
    rw [hdisp]
    simp [getUnboundedObjectFromSelf, hcyc]
  · intro r w' hrun
    rw [hdisp] at hrun
    obtain ⟨sok, herr, _⟩ :=
      getUnboundedObjectFromSelf_ok env tid (getObject env tid fuel cidx)
        (injOK_getObject env tid fuel cidx) provider ctx w r w' hrun
    refine ⟨?_, ?_, ?_⟩
    · by_contra hne
      obtain ⟨k0', body', cdef', hc', hr'⟩ := sok.cache cidx ctx.key hne
      rw [henv] at hc'
      injection hc' with hc''
      subst hc''
      rw [hreg] at hr'
      injection hr' with hr''
      injection hr''
      omega
    · exact sok.record cidx ctx.key (by simp [World.recordAt, hst, hrec0])
    · intro e he
      refine ⟨herr e he, ?_⟩
      intro kk ll ss hcon
      subst hcon
      exact absurd (herr _ he) (by simp [InjectorError.isEngineError])

/-- Witness for `shared_within_scope_unbounded`: a Session-scoped binding
resolved from the Singleton-scoped root container. -/
theorem shared_within_scope_unbounded_witness :
    (getObject ⟨[⟨none, 1⟩], ProviderMap.new.insertShared ⟨1, 0⟩ ⟨[], none, 10⟩ 0⟩ 0
        (4 + 1) 0 (CallContext.new ⟨1, 0⟩) (World.init 1) =
      getUnboundedObjectFromSelf
        (getObject ⟨[⟨none, 1⟩], ProviderMap.new.insertShared ⟨1, 0⟩ ⟨[], none, 10⟩ 0⟩
          0 4 0) ⟨[], none, 10⟩
        (CallContext.new ⟨1, 0⟩) (World.init 1))
    ∧ ((CallContext.new ⟨1, 0⟩).trace.previousExistKey (CallContext.new ⟨1, 0⟩).key = true →
        getObject ⟨[⟨none, 1⟩], ProviderMap.new.insertShared ⟨1, 0⟩ ⟨[], none, 10⟩ 0⟩ 0
          (4 + 1) 0 (CallContext.new ⟨1, 0⟩) (World.init 1) =
          .done (.error (.cyclicDependency (CallContext.new ⟨1, 0⟩).key)) (World.init 1))
    ∧ (∀ r w', getObject ⟨[⟨none, 1⟩],
          ProviderMap.new.insertShared ⟨1, 0⟩ ⟨[], none, 10⟩ 0⟩ 0 (4 + 1) 0
          (CallContext.new ⟨1, 0⟩) (World.init 1) = .done r w' →
        w'.cacheAt 0 (CallContext.new ⟨1, 0⟩).key =
          (World.init 1).cacheAt 0 (CallContext.new ⟨1, 0⟩).key
        ∧ w'.recordAt 0 (CallContext.new ⟨1, 0⟩).key = none
        ∧ ∀ e, r = .error e →
            e.isEngineError = true ∧ ∀ kk ll ss, e ≠ .shortLifetime kk ll ss) :=
  shared_within_scope_unbounded
    ⟨[⟨none, 1⟩], ProviderMap.new.insertShared ⟨1, 0⟩ ⟨[], none, 10⟩ 0⟩ 0 4 0
    (CallContext.new ⟨1, 0⟩) (World.init 1) ⟨none, 1⟩ ContainerState.new ⟨1, 0⟩
    ⟨[], none, 10⟩ 0 (by decide) (by decide) (by decide) (by decide) (by decide)
    (by decide)

/-! ## Claim C5 -/

/-- Claim C5: when a shared construction at the container's own scope
finishes — success or failure — the in-progress record for the Key is gone
from the constructing table in the returned world; and after a failure the
cache is still empty for that Key, so a subsequent resolution of the same Key
passes the record check and runs `construct_shared_object` afresh, invoking
the provider again rather than failing or blocking on a stale record. -/
theorem shared_record_removed_and_retry (env : Env) (tid fuel cidx : Nat) (key : Key)
    (w w1 : World) (r : Except InjectorError Obj) (cdef : ContainerDef)
    (st : ContainerState) (k0 : Key) (provider : ProviderBody)
    (henv : env.containers[cidx]? = some cdef)
    (hst : w.states[cidx]? = some st)
    (hmiss : alistGet st.objects key = none)
    (hreg : env.registry.get key = some (.shared k0 provider cdef.scope))
    (hrun : getObject env tid (fuel + 1) cidx (CallContext.new key) w = .done r w1) :
    w1.recordAt cidx key = none
    ∧ ∀ e, r = .error e →
        w1.cacheAt cidx key = none
        ∧ ∀ m, (getObject env tid (m + 1) cidx (CallContext.new key) w1 =
            constructSharedObject (getObject env tid m cidx) tid cidx provider
              (CallContext.new key) w1)
          ∧ ∀ r2 w2,
              getObject env tid (m + 1) cidx (CallContext.new key) w1 = .done r2 w2 →
              ∃ tail, w2.invoked = w1.invoked ++ key :: tail := by
  have hfwd : shouldForwardRequestToParent cdef.scope cdef.scope = false := by
    simp [shouldForwardRequestToParent]
  have hkey : (CallContext.new key).key = key := rfl
  have hshared : getObject env tid (fuel + 1) cidx (CallContext.new key) w =
      getSharedObjectFromSelf (getObject env tid fuel cidx) tid cidx provider
        (CallContext.new key) w := by
    simp only [getObject, hst, henv, tryGetConstructedObject, hkey, hmiss,
      tryGetProviderByKey, hreg, hfwd, Bool.false_eq_true, if_false, if_pos rfl]
    simp
  rw [hshared] at hrun
  obtain ⟨⟨sok, _, _⟩, hrecnone, herrcache, _⟩ :=
    getSharedObjectFromSelf_ok env tid (getObject env tid fuel cidx)
      (injOK_getObject env tid fuel cidx) cidx provider
      (CallContext.new key) w k0 cdef st henv hreg hst r w1 hrun
  simp only [CallContext.key_new] at hrecnone herrcache
  refine ⟨hrecnone, ?_⟩
  intro e he
  subst he
  have hcache1 : w1.cacheAt cidx key = none := by
    rw [herrcache e rfl]
    simp [World.cacheAt, hst, hmiss]
  refine ⟨hcache1, ?_⟩
  intro m
  obtain ⟨st1, hst1⟩ := exists_getElem?_of_length_eq sok.len hst
  have hmiss1 : alistGet st1.objects key = none := by
    simpa [World.cacheAt, hst1] using hcache1
  have hrec1 : alistGet st1.constructing key = none := by
    simpa [World.recordAt, hst1] using hrecnone
  have hstep : getObject env tid (m + 1) cidx (CallContext.new key) w1 =
      constructSharedObject (getObject env tid m cidx) tid cidx provider
        (CallContext.new key) w1 := by
    simp only [getObject, hst1, henv, tryGetConstructedObject, hkey, hmiss1,
      tryGetProviderByKey, hreg, hfwd, Bool.false_eq_true, if_false, if_pos rfl,
      getSharedObjectFromSelf, World.recordAt, hst1, hrec1]
    simp
  refine ⟨hstep, ?_⟩
  intro r2 w2 heq2
  rw [hstep] at heq2
  obtain ⟨_, _, _, _, htail⟩ :=
    constructSharedObject_ok env tid (getObject env tid m cidx)
      (injOK_getObject env tid m cidx) cidx provider
      (CallContext.new key) w1 k0 cdef st1 henv hreg hst1
      (by simp [World.recordAt, hst1, hrec1, CallContext.key_new]) r2 w2 heq2
  exact htail

/-- Witness for `shared_record_removed_and_retry`: a provider whose domain
logic fails; the record is removed and the retry re-invokes the provider. -/
theorem shared_record_removed_and_retry_witness :
    (⟨[⟨[], []⟩], 0, [⟨1, 0⟩], []⟩ : World).recordAt 0 ⟨1, 0⟩ = none
    ∧ ∀ e, (Except.error (InjectorError.objectConstruction ⟨1, 0⟩ 9) :
          Except InjectorError Obj) = .error e →
        (⟨[⟨[], []⟩], 0, [⟨1, 0⟩], []⟩ : World).cacheAt 0 ⟨1, 0⟩ = none
        ∧ ∀ m, (getObject ⟨[⟨none, 0⟩], ProviderMap.new.insertShared ⟨1, 0⟩
              ⟨[], some 9, 10⟩ 0⟩ 0 (m + 1) 0 (CallContext.new ⟨1, 0⟩)
              ⟨[⟨[], []⟩], 0, [⟨1, 0⟩], []⟩ =
            constructSharedObject
              (getObject ⟨[⟨none, 0⟩], ProviderMap.new.insertShared ⟨1, 0⟩
                ⟨[], some 9, 10⟩ 0⟩ 0 m 0) 0 0 ⟨[], some 9, 10⟩
              (CallContext.new ⟨1, 0⟩) ⟨[⟨[], []⟩], 0, [⟨1, 0⟩], []⟩)
          ∧ ∀ r2 w2,
              getObject ⟨[⟨none, 0⟩], ProviderMap.new.insertShared ⟨1, 0⟩
                ⟨[], some 9, 10⟩ 0⟩ 0 (m + 1) 0 (CallContext.new ⟨1, 0⟩)
                ⟨[⟨[], []⟩], 0, [⟨1, 0⟩], []⟩ = .done r2 w2 →
              ∃ tail, w2.invoked =
                (⟨[⟨[], []⟩], 0, [⟨1, 0⟩], []⟩ : World).invoked ++ ⟨1, 0⟩ :: tail :=
  shared_record_removed_and_retry
    ⟨[⟨none, 0⟩], ProviderMap.new.insertShared ⟨1, 0⟩ ⟨[], some 9, 10⟩ 0⟩ 0 5 0 ⟨1, 0⟩
    (World.init 1) ⟨[⟨[], []⟩], 0, [⟨1, 0⟩], []⟩
    (.error (.objectConstruction ⟨1, 0⟩ 9)) ⟨none, 0⟩ ContainerState.new ⟨1, 0⟩
    ⟨[], some 9, 10⟩ (by decide) (by decide) (by decide) (by decide)
    (by decide)

/-! ## Claim C6 -/

/-- Claim C6: a Key bound to a shared provider whose scope strictly outlives
the resolving container's scope is delegated to the parent container
(recursively, final conjunct); in a family of one root (scope 1) and two
sibling children (scope 0), after one child successfully resolves a Key bound
at the root's scope, the instance is cached once in the root, in neither
child's cache, and the other sibling's resolution returns the same instance
(same allocation identity) from the root's cache without any further state
change. -/
theorem shared_outlives_common_ancestor (m : ProviderMap) (tid fuel : Nat)
    (key k0 : Key) (provider : ProviderBody) (w w1 : World) (o1 : Obj)
    (st0 st1 st2 : ContainerState)
    (hst0 : w.states[0]? = some st0) (hst1 : w.states[1]? = some st1)
    (hst2 : w.states[2]? = some st2)
    (hm1 : alistGet st1.objects key = none)
    (hm2 : alistGet st2.objects key = none)
    (hreg : m.get key = some (.shared k0 provider 1))
    (hrun : getObject ⟨[⟨none, 1⟩, ⟨some 0, 0⟩, ⟨some 0, 0⟩], m⟩ tid (fuel + 1) 1
        (CallContext.new key) w = .done (.ok o1) w1) :
    w1.cacheAt 0 key = some o1
    ∧ w1.cacheAt 1 key = none
    ∧ w1.cacheAt 2 key = none
    ∧ (∀ n, getObject ⟨[⟨none, 1⟩, ⟨some 0, 0⟩, ⟨some 0, 0⟩], m⟩ tid (n + 1 + 1) 2
        (CallContext.new key) w1 = .done (.ok o1) w1)
    ∧ (∀ (env' : Env) (tid' fuel' cidx' : Nat) (ctx' : CallContext) (w' : World)
        (cdef' : ContainerDef) (st' : ContainerState) (k0' : Key)
        (provider' : ProviderBody) (s' parent' : Nat),
        env'.containers[cidx']? = some cdef' → w'.states[cidx']? = some st' →
        alistGet st'.objects ctx'.key = none →
        env'.registry.get ctx'.key = some (.shared k0' provider' s') →
        cdef'.scope < s' → cdef'.parent = some parent' →
        getObject env' tid' (fuel' + 1) cidx' ctx' w' =
          getObject env' tid' fuel' parent' ctx' w') := by
  have hkey : (CallContext.new key).key = key := rfl
  have hdel1 : getObject ⟨[⟨none, 1⟩, ⟨some 0, 0⟩, ⟨some 0, 0⟩], m⟩ tid (fuel + 1) 1
      (CallContext.new key) w =
      getObject ⟨[⟨none, 1⟩, ⟨some 0, 0⟩, ⟨some 0, 0⟩], m⟩ tid fuel 0
        (CallContext.new key) w :=
    getObject_forwards_to_parent ⟨[⟨none, 1⟩, ⟨some 0, 0⟩, ⟨some 0, 0⟩], m⟩ tid fuel 1
      (CallContext.new key) w ⟨some 0, 0⟩ st1
      k0 provider 1 0 rfl hst1 hm1 hreg (by decide) rfl
  rw [hdel1] at hrun
  cases fuel with
  | zero => exact absurd hrun (by simp [getObject])
  | succ n =>
    have hcache0 : w1.cacheAt 0 key = some o1 :=
      getObject_shared_success_cache ⟨[⟨none, 1⟩, ⟨some 0, 0⟩, ⟨some 0, 0⟩], m⟩ tid n 0
        (CallContext.new key) w w1 o1 ⟨none, 1⟩
        st0 k0 provider rfl hst0 hreg hrun
    obtain ⟨sok, _, _⟩ :=
      getObject_ok ⟨[⟨none, 1⟩, ⟨some 0, 0⟩, ⟨some 0, 0⟩], m⟩ tid (n + 1) 0
        (CallContext.new key) w (.ok o1) w1 hrun
    have hside : ∀ j, j = 1 ∨ j = 2 → w1.cacheAt j key = w.cacheAt j key := by
      intro j hj
      by_contra hne
      obtain ⟨k0', body', cdef', hc', hr'⟩ := sok.cache j key hne
      have hcdef : cdef' = ContainerDef.mk (some 0) 0 := by
        rcases hj with hj | hj
        · subst hj
          have h1 : (⟨[⟨none, 1⟩, ⟨some 0, 0⟩, ⟨some 0, 0⟩], m⟩ :
              Env).containers[1]? = some ⟨some 0, 0⟩ := rfl
          rw [h1] at hc'
          exact (Option.some.inj hc').symm
        · subst hj
          have h2 : (⟨[⟨none, 1⟩, ⟨some 0, 0⟩, ⟨some 0, 0⟩], m⟩ :
              Env).containers[2]? = some ⟨some 0, 0⟩ := rfl
          rw [h2] at hc'
          exact (Option.some.inj hc').symm
      subst hcdef
      rw [hreg] at hr'
      injection hr' with hr''
      injection hr'' with e1 e2 e3
      exact absurd e3 (by decide)
    have hcache1 : w1.cacheAt 1 key = none := by
      rw [hside 1 (Or.inl rfl)]
      simp [World.cacheAt, hst1, hm1]
    have hcache2 : w1.cacheAt 2 key = none := by
      rw [hside 2 (Or.inr rfl)]
      simp [World.cacheAt, hst2, hm2]
    refine ⟨hcache0, hcache1, hcache2, ?_, ?_⟩
    · intro n2
      obtain ⟨st2', hst2'⟩ := exists_getElem?_of_length_eq sok.len hst2
      obtain ⟨st0', hst0'⟩ := exists_getElem?_of_length_eq sok.len hst0
      have hm2' : alistGet st2'.objects key = none := by
        simpa [World.cacheAt, hst2'] using hcache2
      have hhit0 : alistGet st0'.objects key = some o1 := by
        simpa [World.cacheAt, hst0'] using hcache0
      have hdel2 : getObject ⟨[⟨none, 1⟩, ⟨some 0, 0⟩, ⟨some 0, 0⟩], m⟩ tid (n2 + 1 + 1)
          2 (CallContext.new key) w1 =
          getObject ⟨[⟨none, 1⟩, ⟨some 0, 0⟩, ⟨some 0, 0⟩], m⟩ tid (n2 + 1) 0
            (CallContext.new key) w1 :=
        getObject_forwards_to_parent ⟨[⟨none, 1⟩, ⟨some 0, 0⟩, ⟨some 0, 0⟩], m⟩ tid
          (n2 + 1) 2 (CallContext.new key) w1
          ⟨some 0, 0⟩ st2' k0 provider 1 0 rfl hst2' hm2' hreg (by decide) rfl
      rw [hdel2]
      exact getObject_cache_hit ⟨[⟨none, 1⟩, ⟨some 0, 0⟩, ⟨some 0, 0⟩], m⟩ tid n2 0
        (CallContext.new key) w1 o1 ⟨none, 1⟩ st0'
        rfl hst0' hhit0
    · intro env' tid' fuel' cidx' ctx' w' cdef' st' k0' provider' s' parent' henv' hst'
        hmiss' hreg' hlt' hparent'
      exact getObject_forwards_to_parent env' tid' fuel' cidx' ctx' w' cdef' st' k0'
        provider' s' parent' henv' hst' hmiss' hreg' hlt' hparent'

/-- Witness for `shared_outlives_common_ancestor`: a concrete root-bound Key
resolved from the first child. -/
theorem shared_outlives_common_ancestor_witness :
    (⟨[⟨[(⟨1, 0⟩, ⟨1, 10, 0⟩)], []⟩, ⟨[], []⟩, ⟨[], []⟩], 1, [⟨1, 0⟩], []⟩ : World).cacheAt
        0 ⟨1, 0⟩ = some ⟨1, 10, 0⟩
    ∧ (⟨[⟨[(⟨1, 0⟩, ⟨1, 10, 0⟩)], []⟩, ⟨[], []⟩, ⟨[], []⟩], 1, [⟨1, 0⟩], []⟩ :
        World).cacheAt 1 ⟨1, 0⟩ = none
    ∧ (⟨[⟨[(⟨1, 0⟩, ⟨1, 10, 0⟩)], []⟩, ⟨[], []⟩, ⟨[], []⟩], 1, [⟨1, 0⟩], []⟩ :
        World).cacheAt 2 ⟨1, 0⟩ = none
    ∧ (∀ n, getObject ⟨[⟨none, 1⟩, ⟨some 0, 0⟩, ⟨some 0, 0⟩],
          ProviderMap.new.insertShared ⟨1, 0⟩ ⟨[], none, 10⟩ 1⟩ 0 (n + 1 + 1) 2
          (CallContext.new ⟨1, 0⟩)
          ⟨[⟨[(⟨1, 0⟩, ⟨1, 10, 0⟩)], []⟩, ⟨[], []⟩, ⟨[], []⟩], 1, [⟨1, 0⟩], []⟩ =
        .done (.ok ⟨1, 10, 0⟩)
          ⟨[⟨[(⟨1, 0⟩, ⟨1, 10, 0⟩)], []⟩, ⟨[], []⟩, ⟨[], []⟩], 1, [⟨1, 0⟩], []⟩)
    ∧ (∀ (env' : Env) (tid' fuel' cidx' : Nat) (ctx' : CallContext) (w' : World)
        (cdef' : ContainerDef) (st' : ContainerState) (k0' : Key)
        (provider' : ProviderBody) (s' parent' : Nat),
        env'.containers[cidx']? = some cdef' → w'.states[cidx']? = some st' →
        alistGet st'.objects ctx'.key = none →
        env'.registry.get ctx'.key = some (.shared k0' provider' s') →
        cdef'.scope < s' → cdef'.parent = some parent' →
        getObject env' tid' (fuel' + 1) cidx' ctx' w' =
          getObject env' tid' fuel' parent' ctx' w') :=
  shared_outlives_common_ancestor
    (ProviderMap.new.insertShared ⟨1, 0⟩ ⟨[], none, 10⟩ 1) 0 5 ⟨1, 0⟩ ⟨1, 0⟩
    ⟨[], none, 10⟩ (World.init 3)
    ⟨[⟨[(⟨1, 0⟩, ⟨1, 10, 0⟩)], []⟩, ⟨[], []⟩, ⟨[], []⟩], 1, [⟨1, 0⟩], []⟩ ⟨1, 10, 0⟩
    ContainerState.new ContainerState.new ContainerState.new (by decide) (by decide)
    (by decide) (by decide) (by decide) (by decide) (by decide)


/-! ## Claim C1 -/

/-- Claim C1, failing execution: in the shared-construction protocol, two
threads (both fresh callers of `get_object` for the same Key bound shared at
the container's own scope) can interleave so that the provider is invoked
twice and the two callers end with distinct instances.  Thread 1 passes the
cache check; thread 2 then runs the entire construction (cache check, record
insertion, provider invocation, cache fill, record removal); thread 1 then
takes the write lock, finds the in-progress table empty — there is no
re-check of the cache in `get_shared_object_from_self` — and constructs
again.  The final configuration has both threads finished, an invocation
count of 2, and allocation identities 1 and 0 for threads 0 and 1
respectively. -/
theorem shared_double_construction_trace :
    Relation.ReflTransGen
      (Protocol.Step ⟨1, 0⟩ fun i => .ok ⟨1, 7, i⟩)
      ⟨[.idle, .idle], none, none, 0⟩
      ⟨[.finished (.ok ⟨1, 7, 1⟩), .finished (.ok ⟨1, 7, 0⟩)], none, some ⟨1, 7, 1⟩, 2⟩
    ∧ (⟨1, 7, 1⟩ : Obj).instId ≠ (⟨1, 7, 0⟩ : Obj).instId := by
  constructor
  · have s1 : Protocol.Step ⟨1, 0⟩ (fun i => .ok ⟨1, 7, i⟩)
        ⟨[.idle, .idle], none, none, 0⟩
        ⟨[.checked, .idle], none, none, 0⟩ :=
      Protocol.Step.cacheMiss _ 0 rfl rfl
    have s2 : Protocol.Step ⟨1, 0⟩ (fun i => .ok ⟨1, 7, i⟩)
        ⟨[.checked, .idle], none, none, 0⟩
        ⟨[.checked, .checked], none, none, 0⟩ :=
      Protocol.Step.cacheMiss _ 1 rfl rfl
    have s3 : Protocol.Step ⟨1, 0⟩ (fun i => .ok ⟨1, 7, i⟩)
        ⟨[.checked, .checked], none, none, 0⟩
        ⟨[.checked, .constructing 0], some (1, []), none, 1⟩ :=
      Protocol.Step.beginConstruct _ 1 rfl rfl
    have s4 : Protocol.Step ⟨1, 0⟩ (fun i => .ok ⟨1, 7, i⟩)
        ⟨[.checked, .constructing 0], some (1, []), none, 1⟩
        ⟨[.checked, .finished (.ok ⟨1, 7, 0⟩)], none, some ⟨1, 7, 0⟩, 1⟩ :=
      Protocol.Step.finishConstruct _ 1 0 ⟨1, 7, 0⟩ rfl rfl
    have s5 : Protocol.Step ⟨1, 0⟩ (fun i => .ok ⟨1, 7, i⟩)
        ⟨[.checked, .finished (.ok ⟨1, 7, 0⟩)], none, some ⟨1, 7, 0⟩, 1⟩
        ⟨[.constructing 1, .finished (.ok ⟨1, 7, 0⟩)], some (0, []), some ⟨1, 7, 0⟩, 2⟩ :=
      Protocol.Step.beginConstruct _ 0 rfl rfl
    have s6 : Protocol.Step ⟨1, 0⟩ (fun i => .ok ⟨1, 7, i⟩)
        ⟨[.constructing 1, .finished (.ok ⟨1, 7, 0⟩)], some (0, []), some ⟨1, 7, 0⟩, 2⟩
        ⟨[.finished (.ok ⟨1, 7, 1⟩), .finished (.ok ⟨1, 7, 0⟩)], none, some ⟨1, 7, 1⟩,
          2⟩ :=
      Protocol.Step.finishConstruct _ 0 1 ⟨1, 7, 1⟩ rfl rfl
    exact Relation.ReflTransGen.tail
      (Relation.ReflTransGen.tail
        (Relation.ReflTransGen.tail
          (Relation.ReflTransGen.tail
            (Relation.ReflTransGen.tail
              (Relation.ReflTransGen.tail Relation.ReflTransGen.refl s1) s2) s3) s4)
        s5) s6
  · decide

end Iocc
